import Mathlib

/-!
Verification of the read-only query gateway of the claude-mcp-server
repository (src/src/db/{postgres,mysql,mongo}/database.py).

The Python code is shallowly embedded: strings are Lean Strings (lists of
Chars), Python dict/list/str/int/bool/None values are the inductive PyVal,
Python exceptions are an explicit Except layer, and every call to the
database driver is recorded in an explicit trace so that theorems can speak
about which commands reach the backend.  Regular-expression searches used by
the deny-lists (re.search of word-boundary patterns) are modelled by an
executable scanner over character lists.
-/

set_option maxRecDepth 20000

/-- Character constants, named to keep them out of string literals. -/
def chQuote : Char := Char.ofNat 34

def chApos : Char := Char.ofNat 39

def chLBrace : Char := Char.ofNat 123

def chRBrace : Char := Char.ofNat 125

def chBackslash : Char := Char.ofNat 92

/-- Whitespace stripped by Python str.strip (ASCII fragment). -/
def isPySpace (c : Char) : Bool :=
  c = ' ' || c = Char.ofNat 9 || c = Char.ofNat 10 || c = Char.ofNat 13 ||
  c = Char.ofNat 11 || c = Char.ofNat 12

/-- Whitespace matched by the regex class backslash-s (ASCII fragment). -/
def isReSpace (c : Char) : Bool := isPySpace c

/-- Whitespace accepted between JSON tokens by json.loads. -/
def isJsonWs (c : Char) : Bool :=
  c = ' ' || c = Char.ofNat 9 || c = Char.ofNat 10 || c = Char.ofNat 13

/-- Word characters of the regex class backslash-w (ASCII fragment). -/
def isWordChar (c : Char) : Bool := c.isAlphanum || c = '_'

def isWordCharOpt : Option Char → Bool
  | none => false
  | some c => isWordChar c

/-- Python str.lower, modelled on the ASCII fragment via Char.toLower. -/
def pyLower (s : String) : String := String.mk (s.toList.map Char.toLower)

/-- Python str.upper, modelled on the ASCII fragment via Char.toUpper. -/
def pyUpper (s : String) : String := String.mk (s.toList.map Char.toUpper)

def pyStripList (l : List Char) : List Char :=
  ((l.dropWhile isPySpace).reverse.dropWhile isPySpace).reverse

/-- Python str.strip(). -/
def pyStrip (s : String) : String := String.mk (pyStripList s.toList)

/-- Python str.startswith. -/
def pyStartsWith (s pre : String) : Bool := pre.toList.isPrefixOf s.toList

def substrContainsList (pat : List Char) : List Char → Bool
  | [] => pat.isEmpty
  | c :: rest => pat.isPrefixOf (c :: rest) || substrContainsList pat rest

/-- Python membership test of a substring: pat in s. -/
def substrContains (s pat : String) : Bool := substrContainsList pat.toList s.toList

def pyReplaceGo (pat rep : List Char) : Nat → List Char → List Char
  | 0, l => l
  | _ + 1, [] => []
  | fuel + 1, c :: rest =>
    if pat.isPrefixOf (c :: rest) then
      rep ++ pyReplaceGo pat rep fuel ((c :: rest).drop pat.length)
    else
      c :: pyReplaceGo pat rep fuel rest

/-- Python str.replace(pat, rep) for a non-empty pat, replacing every
non-overlapping occurrence from the left. -/
def pyReplace (s pat rep : String) : String :=
  match pat.toList with
  | [] => s
  | _ => String.mk (pyReplaceGo pat.toList rep.toList (s.toList.length + 1) s.toList)

def digitsToNat (l : List Char) : Nat :=
  l.foldl (fun a c => a * 10 + (c.toNat - 48)) 0

/-- The preceding character of an occurrence that starts right after pre,
when the character before the scanned region is prev: the last character
of pre if there is one, otherwise prev. -/
def prevCharOf (prev : Option Char) : List Char → Option Char
  | [] => prev
  | c :: rest => prevCharOf (some c) rest

/-- Right-hand condition of a trailing word-boundary in a regex pattern:
the next character, if any, is not a word character. -/
def wordEndCk (post : List Char) : Bool := !(isWordCharOpt post.head?)

/-- Right-hand condition of the pattern fragment backslash-s star followed
by a literal opening parenthesis. -/
def parenAfterWsCk (post : List Char) : Bool :=
  (post.dropWhile isReSpace).head? = some '('

/-- One match attempt of the modelled regex search at the current position:
the literal must be a prefix here, a required leading word boundary must
hold against the previous character, and the right-hand condition must hold
on the remainder. -/
def scanMatchAt (lit : List Char) (leftB : Bool) (rightCk : List Char → Bool)
    (prev : Option Char) (s : List Char) : Bool :=
  lit.isPrefixOf s && (!leftB || !(isWordCharOpt prev)) && rightCk (s.drop lit.length)

def scanFrom (lit : List Char) (leftB : Bool) (rightCk : List Char → Bool) :
    Option Char → List Char → Bool
  | _, [] => false
  | prev, c :: rest =>
    scanMatchAt lit leftB rightCk prev (c :: rest) ||
      scanFrom lit leftB rightCk (some c) rest

/-- Model of re.search for the deny-list patterns: a literal with an
optional leading word boundary and a right-hand-side condition. -/
def reSearch (lit : String) (leftB : Bool) (rightCk : List Char → Bool)
    (s : String) : Bool :=
  scanFrom lit.toList leftB rightCk none s.toList

/-- Declarative occurrence of a pattern: some decomposition of the text
places the literal with the boundary conditions satisfied. -/
def OccurSpec (lit : List Char) (leftB : Bool) (rightCk : List Char → Bool)
    (s : List Char) : Prop :=
  ∃ pre post, s = pre ++ lit ++ post ∧
    (leftB = true → isWordCharOpt (prevCharOf none pre) = false) ∧
    rightCk post = true

/-- Python runtime values as far as the gateway manipulates them. -/
inductive PyVal where
  | none
  | bool (b : Bool)
  | int (n : Int)
  | str (s : String)
  | list (l : List PyVal)
  | dict (fields : List (String × PyVal))

/-- Python truthiness of a value. -/
def pyTruthy : PyVal → Bool
  | .none => false
  | .bool b => b
  | .int n => n ≠ 0
  | .str s => !(s.toList.isEmpty)
  | .list l => !l.isEmpty
  | .dict l => !l.isEmpty

def dictHasKey (fields : List (String × PyVal)) (k : String) : Bool :=
  fields.any (fun kv => kv.1 = k)

def dictGet (fields : List (String × PyVal)) (k : String) : Option PyVal :=
  (fields.find? (fun kv => kv.1 = k)).map (fun kv => kv.2)

/-- Insertion into a Python dict: an existing key keeps its position and
receives the new value, a new key is appended. -/
def dictInsertRepl (fields : List (String × PyVal)) (k : String) (v : PyVal) :
    List (String × PyVal) :=
  if fields.any (fun kv => kv.1 = k) then
    fields.map (fun kv => if kv.1 = k then (k, v) else kv)
  else fields ++ [(k, v)]

/-- Python exceptions crossing the embedded code. -/
inductive PyExc where
  | valueError (msg : String)
  | typeError (msg : String)
  | attributeError (msg : String)
  | backend (msg : String)

def pyExcMsg : PyExc → String
  | .valueError m => m
  | .typeError m => m
  | .attributeError m => m
  | .backend m => m

/-- Python int(str): strip, optional sign, decimal digits. -/
def pyInt (s : String) : Except PyExc Int :=
  let l := pyStripList s.toList
  match l with
  | '-' :: ds =>
    if !ds.isEmpty && ds.all Char.isDigit then .ok (-(digitsToNat ds : Int))
    else .error (.valueError ("invalid literal for int: " ++ s))
  | '+' :: ds =>
    if !ds.isEmpty && ds.all Char.isDigit then .ok (digitsToNat ds : Int)
    else .error (.valueError ("invalid literal for int: " ++ s))
  | ds =>
    if !ds.isEmpty && ds.all Char.isDigit then .ok (digitsToNat ds : Int)
    else .error (.valueError ("invalid literal for int: " ++ s))

def hexVal (c : Char) : Option Nat :=
  if c.isDigit then some (c.toNat - 48)
  else if 'a' ≤ c ∧ c ≤ 'f' then some (c.toNat - 87)
  else if 'A' ≤ c ∧ c ≤ 'F' then some (c.toNat - 55)
  else Option.none

mutual

/-- Recursive-descent model of json.loads on a character list, consuming
one value and returning the rest.  JSON numbers are modelled as integers;
fraction and exponent forms (floats) are rejected, which no claim input
needs.  Fuel is always sufficient for the inputs considered because every
recursive call first consumes at least one character. -/
def jsonParseVal : Nat → List Char → Option (PyVal × List Char)
  | 0, _ => Option.none
  | fuel + 1, l =>
    let l := l.dropWhile isJsonWs
    match l with
    | [] => Option.none
    | c :: rest =>
      if c = chLBrace then
        match rest.dropWhile isJsonWs with
        | c2 :: r2 =>
          if c2 = chRBrace then some (.dict [], r2)
          else jsonParseObjItems fuel (rest.dropWhile isJsonWs) []
        | [] => Option.none
      else if c = '[' then
        match rest.dropWhile isJsonWs with
        | c2 :: r2 =>
          if c2 = ']' then some (.list [], r2)
          else jsonParseArrItems fuel (rest.dropWhile isJsonWs) []
        | [] => Option.none
      else if c = chQuote then
        match jsonParseStringBody fuel rest with
        | some (cs, r2) => some (.str (String.mk cs), r2)
        | Option.none => Option.none
      else if ['t', 'r', 'u', 'e'].isPrefixOf l then
        some (.bool true, l.drop 4)
      else if ['f', 'a', 'l', 's', 'e'].isPrefixOf l then
        some (.bool false, l.drop 5)
      else if ['n', 'u', 'l', 'l'].isPrefixOf l then
        some (PyVal.none, l.drop 4)
      else
        let (neg, l2) := if c = '-' then (true, rest) else (false, l)
        let ds := l2.takeWhile Char.isDigit
        if ds.isEmpty then Option.none
        else if ds.length > 1 ∧ ds.head? = some '0' then Option.none
        else
          let l3 := l2.drop ds.length
          match l3.head? with
          | some c3 =>
            if c3 = '.' ∨ c3 = 'e' ∨ c3 = 'E' then Option.none
            else some (.int (if neg then -(digitsToNat ds : Int) else (digitsToNat ds : Int)), l3)
          | Option.none =>
            some (.int (if neg then -(digitsToNat ds : Int) else (digitsToNat ds : Int)), l3)

/-- Body of a JSON string after the opening quote; rejects raw control
characters as json.loads does. -/
def jsonParseStringBody : Nat → List Char → Option (List Char × List Char)
  | 0, _ => Option.none
  | fuel + 1, l =>
    match l with
    | [] => Option.none
    | c :: rest =>
      if c = chQuote then some ([], rest)
      else if c = chBackslash then
        match rest with
        | [] => Option.none
        | e :: r2 =>
          if e = chQuote then
            (jsonParseStringBody fuel r2).map (fun p => (chQuote :: p.1, p.2))
          else if e = chBackslash then
            (jsonParseStringBody fuel r2).map (fun p => (chBackslash :: p.1, p.2))
          else if e = '/' then
            (jsonParseStringBody fuel r2).map (fun p => ('/' :: p.1, p.2))
          else if e = 'b' then
            (jsonParseStringBody fuel r2).map (fun p => (Char.ofNat 8 :: p.1, p.2))
          else if e = 'f' then
            (jsonParseStringBody fuel r2).map (fun p => (Char.ofNat 12 :: p.1, p.2))
          else if e = 'n' then
            (jsonParseStringBody fuel r2).map (fun p => (Char.ofNat 10 :: p.1, p.2))
          else if e = 'r' then
            (jsonParseStringBody fuel r2).map (fun p => (Char.ofNat 13 :: p.1, p.2))
          else if e = 't' then
            (jsonParseStringBody fuel r2).map (fun p => (Char.ofNat 9 :: p.1, p.2))
          else if e = 'u' then
            match r2 with
            | h1 :: h2 :: h3 :: h4 :: r3 =>
              match hexVal h1, hexVal h2, hexVal h3, hexVal h4 with
              | some a, some b, some c1, some d =>
                (jsonParseStringBody fuel r3).map
                  (fun p => (Char.ofNat (((a * 16 + b) * 16 + c1) * 16 + d) :: p.1, p.2))
              | _, _, _, _ => Option.none
            | _ => Option.none
          else Option.none
      else if c.toNat < 32 then Option.none
      else (jsonParseStringBody fuel rest).map (fun p => (c :: p.1, p.2))

def jsonParseArrItems : Nat → List Char → List PyVal → Option (PyVal × List Char)
  | 0, _, _ => Option.none
  | fuel + 1, l, acc =>
    match jsonParseVal fuel l with
    | Option.none => Option.none
    | some (v, r1) =>
      match r1.dropWhile isJsonWs with
      | ',' :: r2 => jsonParseArrItems fuel r2 (acc ++ [v])
      | c :: r2 =>
        if c = ']' then some (.list (acc ++ [v]), r2) else Option.none
      | [] => Option.none

def jsonParseObjItems : Nat → List Char → List (String × PyVal) →
    Option (PyVal × List Char)
  | 0, _, _ => Option.none
  | fuel + 1, l, acc =>
    match l with
    | c :: rest =>
      if c = chQuote then
        match jsonParseStringBody fuel rest with
        | some (key, r1) =>
          match r1.dropWhile isJsonWs with
          | ':' :: r2 =>
            match jsonParseVal fuel r2 with
            | some (v, r3) =>
              let acc := dictInsertRepl acc (String.mk key) v
              match r3.dropWhile isJsonWs with
              | ',' :: r4 => jsonParseObjItems fuel (r4.dropWhile isJsonWs) acc
              | c5 :: r5 =>
                if c5 = chRBrace then some (.dict acc, r5) else Option.none
              | [] => Option.none
            | Option.none => Option.none
          | _ => Option.none
        | Option.none => Option.none
      else Option.none
    | [] => Option.none

end

/-- Model of json.loads: parse one value and require only whitespace after
it; a parse error (Python JSONDecodeError) is the none result. -/
def jsonLoads (s : String) : Option PyVal :=
  match jsonParseVal (2 * s.toList.length + 16) s.toList with
  | some (v, rest) => if (rest.dropWhile isJsonWs).isEmpty then some v else Option.none
  | Option.none => Option.none

/-- Rewrite modelling re.sub of a word-run followed by optional whitespace
and a colon into the same run wrapped in double quotes (quoting bare object
keys before a json.loads retry).  Fuel is always sufficient because every
step consumes at least one character. -/
def quoteBareKeysGo : Nat → List Char → List Char
  | 0, l => l
  | _ + 1, [] => []
  | fuel + 1, c :: rest =>
    if isWordChar c then
      let run := (c :: rest).takeWhile isWordChar
      let after := (c :: rest).dropWhile isWordChar
      if (after.dropWhile isReSpace).head? = some ':' then
        chQuote :: run ++ chQuote :: quoteBareKeysGo fuel after
      else run ++ quoteBareKeysGo fuel after
    else c :: quoteBareKeysGo fuel rest

def quoteBareKeys (s : String) : String :=
  String.mk (quoteBareKeysGo (s.toList.length + 1) s.toList)

/-- Lazy capture of the ObjectId rewrite: the shortest non-empty run of
non-newline characters followed by a quote character and a closing
parenthesis. -/
def objectIdScanInner : List Char → List Char → Option (List Char × List Char)
  | [], _ => Option.none
  | c :: rest, acc =>
    if (c = chQuote ∨ c = chApos) ∧ !acc.isEmpty ∧ rest.head? = some ')' then
      some (acc, rest.tail)
    else if c = Char.ofNat 10 then Option.none
    else objectIdScanInner rest (acc ++ [c])

def objectIdMatchAt (l : List Char) : Option (List Char × List Char) :=
  if ("ObjectId(".toList).isPrefixOf l then
    match l.drop 9 with
    | q :: r2 =>
      if q = chQuote ∨ q = chApos then objectIdScanInner r2 [] else Option.none
    | [] => Option.none
  else Option.none

def objectIdRewriteGo : Nat → List Char → List Char
  | 0, l => l
  | _ + 1, [] => []
  | fuel + 1, c :: rest =>
    match objectIdMatchAt (c :: rest) with
    | some (inner, r2) =>
      ("\x7b\"$oid\": \"".toList ++ inner ++ "\"\x7d".toList) ++ objectIdRewriteGo fuel r2
    | Option.none => c :: objectIdRewriteGo fuel rest

/-- Rewrite modelling re.sub of an ObjectId constructor call into the
canonical extended-JSON form. -/
def objectIdRewrite (s : String) : String :=
  String.mk (objectIdRewriteGo (s.toList.length + 1) s.toList)

namespace Mongo

/-- Safe literal string commands of MongoDBManager.execute_query.  Mirrors
SAFE_STRING_COMMANDS, including the two mixed-case entries. -/
def SAFE_STRING_COMMANDS : List String :=
  ["show collections", "show dbs", "show databases", "db stats", "db.stats()",
   "show profile", "db.getProfilingStatus()", "db.version()"]

/-- Allow-listed top-level keys for whole-dict commands. -/
def SAFE_DICT_OPERATIONS : List String :=
  ["find", "count", "distinct", "aggregate", "findOne", "countDocuments",
   "estimatedDocumentCount", "listCollections", "dbstats", "collstats",
   "dataSize", "dbStats", "ping", "hostInfo", "serverInfo", "listIndexes",
   "getParameter", "buildInfo", "connectionStatus", "serverStatus",
   "validate", "profile"]

/-- Operators stripped from the scan buffer before the deny-list regexes
run (SAFE_OPERATORS in the source). -/
def SAFE_OPERATORS : List String :=
  ["$dateToString", "$dateFromString", "$dateToparts", "$createDate"]

/-- One deny-list regex: a literal, with a leading word boundary for the
plain-word patterns and none for the dollar-prefixed ones; every pattern
ends in a word boundary. -/
structure DenyPat where
  lit : String
  wordStart : Bool

/-- The UNSAFE_PATTERNS list of the source, in order. -/
def UNSAFE_PATTERNS : List DenyPat :=
  [⟨"insert", true⟩, ⟨"update", true⟩, ⟨"delete", true⟩, ⟨"remove", true⟩,
   ⟨"drop", true⟩, ⟨"create", true⟩, ⟨"replace", true⟩, ⟨"rename", true⟩,
   ⟨"$out", false⟩, ⟨"$merge", false⟩, ⟨"mapreduce", true⟩,
   ⟨"createindex", true⟩, ⟨"dropindex", true⟩, ⟨"createcollection", true⟩,
   ⟨"renameCollection", true⟩]

/-- The scan buffer of contains_unsafe_operations: the lowered command with
every lowered safe operator removed, in list order. -/
def mongoScrub (cmdStr : String) : String :=
  SAFE_OPERATORS.foldl
    (fun acc op =>
      let ol := pyLower op
      if substrContains acc ol then pyReplace acc ol "" else acc)
    (pyLower cmdStr)

/-- Mirrors the nested contains_unsafe_operations of
MongoDBManager.execute_query: lower, strip safe operators, search the
deny-list patterns. -/
def contains_unsafe_operations (cmdStr : String) : Bool :=
  UNSAFE_PATTERNS.any (fun p => reSearch p.lit p.wordStart wordEndCk (mongoScrub cmdStr))

/-- The three-stage parameter coercion safe_eval_params of the source.  The
final ok-none result mirrors the Python function falling off its end and
returning None when the first two parses fail and the text does not mention
ObjectId: the ValueError is only raised when the ObjectId rewrite itself
fails to parse. -/
def safe_eval_params (params : String) : Except PyExc PyVal :=
  if pyStrip params = "" then .ok (.dict [])
  else
    match jsonLoads params with
    | some v => .ok v
    | Option.none =>
      match jsonLoads (quoteBareKeys params) with
      | some v => .ok v
      | Option.none =>
        if substrContains params "ObjectId" then
          match jsonLoads (objectIdRewrite params) with
          | some v => .ok v
          | Option.none =>
            .error (.valueError ("Could not parse query parameters: " ++ objectIdRewrite params))
        else .ok PyVal.none

def splitFirstDot : List Char → Option (List Char × List Char)
  | [] => Option.none
  | c :: rest =>
    if c = '.' then some ([], rest)
    else
      match splitFirstDot rest with
      | Option.none => Option.none
      | some (a, r) => some (c :: a, r)

/-- Python str.split with separator dot and maxsplit 2. -/
def pySplit2Dot (s : String) : List String :=
  match splitFirstDot s.toList with
  | Option.none => [s]
  | some (a, r1) =>
    match splitFirstDot r1 with
    | Option.none => [String.mk a, String.mk r1]
    | some (b, r2) => [String.mk a, String.mk b, String.mk r2]

/-- Character scan of the operation part of a shell command, mirroring the
loop of parse_shell_command: parenthesis depth tracking, operation-name
accumulation at depth zero, raw argument capture between the matching
top-level parentheses.  The initial opName mirrors a Python local that is
never read before its first assignment. -/
def parseOpChainGo (full : List Char) (i : Nat) (opChain : List (String × String))
    (currentOp : List Char) (depth : Nat) (paramStart : Nat) (opName : String) :
    List Char → List (String × String)
  | [] => opChain
  | ch :: rest =>
    if ch = '(' ∧ depth = 0 then
      parseOpChainGo full (i + 1) opChain [] 1 (i + 1)
        (pyStrip (String.mk currentOp)) rest
    else if ch = '(' then
      parseOpChainGo full (i + 1) opChain currentOp (depth + 1) paramStart opName rest
    else if ch = ')' ∧ depth > 0 then
      if depth - 1 = 0 then
        let params := pyStrip (String.mk ((full.drop paramStart).take (i - paramStart)))
        parseOpChainGo full (i + 1) (opChain ++ [(opName, params)]) currentOp 0
          paramStart opName rest
      else
        parseOpChainGo full (i + 1) opChain currentOp (depth - 1) paramStart opName rest
    else if ch = '.' ∧ depth = 0 then
      parseOpChainGo full (i + 1) opChain [] depth paramStart opName rest
    else if depth = 0 then
      parseOpChainGo full (i + 1) opChain (currentOp ++ [ch]) depth paramStart opName rest
    else
      parseOpChainGo full (i + 1) opChain currentOp depth paramStart opName rest

def parseOpChain (opPart : List Char) : List (String × String) :=
  parseOpChainGo opPart 0 [] [] 0 0 "" opPart

/-- Mirrors parse_shell_command: requires the fixed db-dot prefix and at
least two dots, and returns collection, primary operation, raw primary
argument and the ordered chained operations.  The Python all-None return
is the none result. -/
def parse_shell_command (cmd : String) :
    Option (String × String × String × List (String × String)) :=
  if pyStartsWith cmd "db." then
    match pySplit2Dot cmd with
    | [_, collection, opPart] =>
      match parseOpChain opPart.toList with
      | [] => Option.none
      | (pop, pparams) :: chained => some (collection, pop, pparams, chained)
    | _ => Option.none
  else Option.none

/-- The argument-splitter of the distinct branch: split on commas at
bracket depth zero, tracking braces and square brackets with a signed
depth as the source does. -/
def splitTopCommaGo (depth : Int) (cur : List Char) (acc : List String) :
    List Char → List String
  | [] => if !cur.isEmpty then acc ++ [pyStrip (String.mk cur)] else acc
  | c :: rest =>
    if c = chLBrace ∨ c = '[' then splitTopCommaGo (depth + 1) (cur ++ [c]) acc rest
    else if c = chRBrace ∨ c = ']' then splitTopCommaGo (depth - 1) (cur ++ [c]) acc rest
    else if c = ',' ∧ depth = 0 then
      splitTopCommaGo depth [] (acc ++ [pyStrip (String.mk cur)]) rest
    else splitTopCommaGo depth (cur ++ [c]) acc rest

def splitTopComma (l : List Char) : List String := splitTopCommaGo 0 [] [] l

/-- Python str.strip of the two quote characters, as applied to the
distinct key argument. -/
def stripQuoteChars (s : String) : String :=
  let isQ : Char → Bool := fun c => c = chQuote || c = chApos
  String.mk (((s.toList.dropWhile isQ).reverse.dropWhile isQ).reverse)

/-- Cursor state accumulated before the single driver call that consumes
the cursor, recording the filter and the modifiers applied to it. -/
structure CursorSpec where
  filter : PyVal
  sort : Option PyVal := Option.none
  limit : Option PyVal := Option.none
  skip : Option PyVal := Option.none
  projection : Option PyVal := Option.none
  hint : Option PyVal := Option.none
  maxTimeMs : Option PyVal := Option.none

def initCursor (f : PyVal) : CursorSpec := { filter := f }

/-- The pymongo driver surface used by MongoDBManager, as an oracle: each
call either yields a native result or raises a driver fault. -/
structure MongoOracle where
  listCollectionNames : Except String (List String)
  listDatabaseNames : Except String (List String)
  command : PyVal → Option PyVal → Except String PyVal
  findDocs : String → CursorSpec → Except String (List PyVal)
  findOne : String → PyVal → Option PyVal → Except String (Option PyVal)
  countDocuments : String → PyVal → Except String Nat
  estimatedDocumentCount : String → Except String Nat
  distinct : String → String → PyVal → Except String (List PyVal)
  aggregate : String → PyVal → Except String (List PyVal)
  explain : String → PyVal → Except String PyVal
  listCollections : PyVal → Except String (List PyVal)

/-- One recorded call to the pymongo driver. -/
inductive MCall where
  | listCollectionNames
  | listDatabaseNames
  | command (arg : PyVal) (extra : Option PyVal)
  | findOne (coll : String) (filter : PyVal) (proj : Option PyVal)
  | find (coll : String) (spec : CursorSpec)
  | countDocuments (coll : String) (filter : PyVal)
  | estimatedDocumentCount (coll : String)
  | distinct (coll : String) (key : String) (filter : PyVal)
  | aggregate (coll : String) (pipeline : PyVal)
  | explain (coll : String) (filter : PyVal)
  | listCollections (filter : PyVal)

abbrev MTrace := List MCall

/-- Results of MongoDBManager.execute_query: Python None, a value, or the
error mapping the source returns as a dict with an error key. -/
inductive MongoRes where
  | pynone
  | val (v : PyVal)
  | errDict (msg : String)

/-- The bson json_util round trip applied to results; extended-type
encoding is out of scope, so it is modelled as the identity. -/
def json_util_roundtrip (v : PyVal) : PyVal := v

/-- Python membership test needle in v, as used on aggregation stages:
key membership on dicts, substring on strings, element equality on lists,
TypeError otherwise. -/
def pyInContains (needle : String) : PyVal → Except PyExc Bool
  | .dict fs => .ok (fs.any (fun kv => kv.1 = needle))
  | .str s => .ok (substrContains s needle)
  | .list l => .ok (l.any (fun v => match v with | .str s => s = needle | _ => false))
  | _ => .error (.typeError "argument is not iterable")

/-- Python iteration over a value, as used by the for loop over a
pipeline: list elements, dict keys, string characters, TypeError
otherwise. -/
def pyIter : PyVal → Except PyExc (List PyVal)
  | .list l => .ok l
  | .dict fs => .ok (fs.map (fun kv => .str kv.1))
  | .str s => .ok (s.toList.map (fun c => .str (String.mk [c])))
  | _ => .error (.typeError "object is not iterable")

/-- The per-stage deny check of the aggregation branches: dollar-out
membership first, then dollar-merge, stopping at the first hit, with the
Python in-operator semantics of pyInContains. -/
def checkStagesLoop : List PyVal → Except PyExc Bool
  | [] => .ok false
  | st :: rest => do
    let b1 ← pyInContains "$out" st
    if b1 then .ok true
    else do
      let b2 ← pyInContains "$merge" st
      if b2 then .ok true else checkStagesLoop rest

/-- Filter resolution shared by the findOne, find and count branches:
an empty stripped argument is the empty filter, otherwise the coercion
safe_eval_params runs. -/
def resolveFindFilter (p : String) : Except PyExc PyVal :=
  if pyStrip p = "" then .ok (.dict []) else safe_eval_params p

/-- The chained-operation loop of the shell find branch: count terminates
the chain (the ok-none result), sort and limit and skip and projection
update the cursor, unrecognized operations are skipped. -/
def applyChain : List (String × String) → CursorSpec → Except PyExc (Option CursorSpec)
  | [], cur => .ok (some cur)
  | (opName, opParams) :: rest, cur =>
    if opName = "count" then .ok Option.none
    else if opName = "sort" then
      match safe_eval_params opParams with
      | .error e => .error e
      | .ok sp =>
        match sp with
        | .dict fs =>
          applyChain rest
            { cur with sort := some (.list (fs.map (fun kv => .list [.str kv.1, kv.2]))) }
        | _ => .error (.attributeError "items")
    else if opName = "limit" then
      match pyInt opParams with
      | .ok n => applyChain rest { cur with limit := some (.int n) }
      | .error e => .error e
    else if opName = "skip" then
      match pyInt opParams with
      | .ok n => applyChain rest { cur with skip := some (.int n) }
      | .error e => .error e
    else if opName = "project" ∨ opName = "projection" then
      match safe_eval_params opParams with
      | .ok pv => applyChain rest { cur with projection := some pv }
      | .error e => .error e
    else applyChain rest cur

/-- The findOne branch of the shell dispatch. -/
def mongoFindOneOp (ox : MongoOracle) (coll pparams : String) :
    Except PyExc (Option MongoRes) × MTrace :=
  match resolveFindFilter pparams with
  | .error e => (.error e, [])
  | .ok fd =>
    match ox.findOne coll fd Option.none with
    | .error e => (.error (.backend e), [.findOne coll fd Option.none])
    | .ok (some doc) =>
      if pyTruthy doc then
        (.ok (some (.val (json_util_roundtrip doc))), [.findOne coll fd Option.none])
      else (.ok (some .pynone), [.findOne coll fd Option.none])
    | .ok Option.none => (.ok (some .pynone), [.findOne coll fd Option.none])

/-- The find branch of the shell dispatch, with the chained-operation
loop. -/
def mongoFindOp (ox : MongoOracle) (coll pparams : String)
    (chain : List (String × String)) : Except PyExc (Option MongoRes) × MTrace :=
  match resolveFindFilter pparams with
  | .error e => (.error e, [])
  | .ok fd =>
    match applyChain chain (initCursor fd) with
    | .error e => (.error e, [])
    | .ok Option.none =>
      match ox.countDocuments coll fd with
      | .ok n => (.ok (some (.val (.int n))), [.countDocuments coll fd])
      | .error e => (.error (.backend e), [.countDocuments coll fd])
    | .ok (some cspec) =>
      match ox.findDocs coll cspec with
      | .ok docs =>
        if docs.isEmpty then (.ok (some (.val (.list []))), [.find coll cspec])
        else (.ok (some (.val (json_util_roundtrip (.list docs)))), [.find coll cspec])
      | .error e => (.error (.backend e), [.find coll cspec])

/-- The aggregate branch of the shell dispatch, with the per-stage deny
check before the single driver call. -/
def mongoAggregateOp (ox : MongoOracle) (coll pparams : String) :
    Except PyExc (Option MongoRes) × MTrace :=
  match (if pyStrip pparams ≠ "" then safe_eval_params pparams else .ok (.list [])) with
  | .error e => (.error e, [])
  | .ok pipeline =>
    match pyIter pipeline with
    | .error e => (.error e, [])
    | .ok stages =>
      match checkStagesLoop stages with
      | .error e => (.error e, [])
      | .ok true => (.ok (some (.errDict "Unsafe aggregation stage detected")), [])
      | .ok false =>
        match ox.aggregate coll pipeline with
        | .ok docs =>
          if docs.isEmpty then (.ok (some (.val (.list []))), [.aggregate coll pipeline])
          else
            (.ok (some (.val (json_util_roundtrip (.list docs)))), [.aggregate coll pipeline])
        | .error e => (.error (.backend e), [.aggregate coll pipeline])

/-- The count and countDocuments branch of the shell dispatch. -/
def mongoCountOp (ox : MongoOracle) (coll pparams : String) :
    Except PyExc (Option MongoRes) × MTrace :=
  match resolveFindFilter pparams with
  | .error e => (.error e, [])
  | .ok fd =>
    match ox.countDocuments coll fd with
    | .ok n => (.ok (some (.val (.int n))), [.countDocuments coll fd])
    | .error e => (.error (.backend e), [.countDocuments coll fd])

/-- The distinct branch of the shell dispatch, with its depth-aware
argument splitting. -/
def mongoDistinctOp (ox : MongoOracle) (coll pparams : String) :
    Except PyExc (Option MongoRes) × MTrace :=
  match splitTopComma pparams.toList with
  | [] => (.ok Option.none, [])
  | p0 :: restPs =>
    let key := stripQuoteChars (pyStrip p0)
    match (match restPs with
           | [] => (.ok (.dict []) : Except PyExc PyVal)
           | p1 :: _ => safe_eval_params p1) with
    | .error e => (.error e, [])
    | .ok fd =>
      match ox.distinct coll key fd with
      | .ok l =>
        if l.isEmpty then (.ok (some (.val (.list []))), [.distinct coll key fd])
        else (.ok (some (.val (json_util_roundtrip (.list l)))), [.distinct coll key fd])
      | .error e => (.error (.backend e), [.distinct coll key fd])

/-- The operation dispatch inside the inner try of the shell branch.  The
ok-none result mirrors Python control flow falling past the dispatch
without returning (unsupported operation, or distinct with no arguments),
which the caller turns into the unsupported-command error. -/
def mongoShellOp (ox : MongoOracle) (coll pop pparams : String)
    (chain : List (String × String)) : Except PyExc (Option MongoRes) × MTrace :=
  if pop = "findOne" then mongoFindOneOp ox coll pparams
  else if pop = "find" then mongoFindOp ox coll pparams chain
  else if pop = "aggregate" then mongoAggregateOp ox coll pparams
  else if pop = "count" ∨ pop = "countDocuments" then mongoCountOp ox coll pparams
  else if pop = "estimatedDocumentCount" then
    match ox.estimatedDocumentCount coll with
    | .ok n => (.ok (some (.val (.int n))), [.estimatedDocumentCount coll])
    | .error e => (.error (.backend e), [.estimatedDocumentCount coll])
  else if pop = "distinct" then mongoDistinctOp ox coll pparams
  else if pop = "stats" then
    match ox.command (.str "collstats") (some (.str coll)) with
    | .ok v => (.ok (some (.val v)), [.command (.str "collstats") (some (.str coll))])
    | .error e => (.error (.backend e), [.command (.str "collstats") (some (.str coll))])
  else if pop = "explain" then
    match safe_eval_params pparams with
    | .error e => (.error e, [])
    | .ok ep =>
      match ox.explain coll ep with
      | .ok v => (.ok (some (.val v)), [.explain coll ep])
      | .error e => (.error (.backend e), [.explain coll ep])
  else (.ok Option.none, [])

/-- The shell branch after a successful parse: the getCollectionNames
special case, the falsy-name rejection, then the inner try around the
operation dispatch whose exceptions become the error mapping, and the
unsupported-command fallthrough. -/
def mongoShellBranch (ox : MongoOracle) (coll pop pparams : String)
    (chain : List (String × String)) : Except PyExc MongoRes × MTrace :=
  if coll = "getCollectionNames()" then
    match ox.listCollectionNames with
    | .ok l => (.ok (.val (.list (l.map .str))), [.listCollectionNames])
    | .error e => (.error (.backend e), [.listCollectionNames])
  else if coll = "" ∨ pop = "" then
    (.ok (.errDict "Invalid MongoDB shell command format"), [])
  else
    match mongoShellOp ox coll pop pparams chain with
    | (.ok (some r), tr) => (.ok r, tr)
    | (.ok Option.none, tr) => (.ok (.errDict "Command not supported in read-only mode"), tr)
    | (.error e, tr) => (.ok (.errDict ("Error executing command: " ++ pyExcMsg e)), tr)

/-- The safe-literal dispatch; faults here are only handled by the outer
handler.  The two mixed-case comparisons mirror dead branches of the
source, and the final case mirrors falling through to the
unsupported-command return. -/
def mongoSafeLiteral (ox : MongoOracle) (cmdLower : String) :
    Except PyExc MongoRes × MTrace :=
  if cmdLower = "show collections" then
    match ox.listCollectionNames with
    | .ok l => (.ok (.val (.list (l.map .str))), [.listCollectionNames])
    | .error e => (.error (.backend e), [.listCollectionNames])
  else if cmdLower = "show dbs" ∨ cmdLower = "show databases" then
    match ox.listDatabaseNames with
    | .ok l => (.ok (.val (.list (l.map .str))), [.listDatabaseNames])
    | .error e => (.error (.backend e), [.listDatabaseNames])
  else if cmdLower = "db stats" ∨ cmdLower = "db.stats()" then
    match ox.command (.str "dbstats") Option.none with
    | .ok v => (.ok (.val v), [.command (.str "dbstats") Option.none])
    | .error e => (.error (.backend e), [.command (.str "dbstats") Option.none])
  else if cmdLower = "show profile" then
    match ox.command (.str "profile") (some (.int (-1))) with
    | .ok v => (.ok (.val v), [.command (.str "profile") (some (.int (-1)))])
    | .error e => (.error (.backend e), [.command (.str "profile") (some (.int (-1)))])
  else if cmdLower = "db.getProfilingStatus()" then
    match ox.command (.str "profile") (some (.int (-1))) with
    | .ok v => (.ok (.val v), [.command (.str "profile") (some (.int (-1)))])
    | .error e => (.error (.backend e), [.command (.str "profile") (some (.int (-1)))])
  else if cmdLower = "db.version()" then
    match ox.command (.str "buildInfo") Option.none with
    | .ok v =>
      match v with
      | .dict fs =>
        match dictGet fs "version" with
        | some x => (.ok (.val x), [.command (.str "buildInfo") Option.none])
        | Option.none => (.ok .pynone, [.command (.str "buildInfo") Option.none])
      | _ => (.error (.attributeError "get"), [.command (.str "buildInfo") Option.none])
    | .error e => (.error (.backend e), [.command (.str "buildInfo") Option.none])
  else (.ok (.errDict "Command not supported in read-only mode"), [])

/-- The string-command branch of execute_query: strip and lower, the
deny-list gate, the safe literals, the shell parser, and the
unsupported-command fallthrough. -/
def mongoExecuteString (ox : MongoOracle) (rawCmd : String) :
    Except PyExc MongoRes × MTrace :=
  let cmd := pyStrip rawCmd
  let cmdLower := pyLower cmd
  if contains_unsafe_operations cmdLower then
    (.ok (.errDict "Operation blocked - only read operations are permitted"), [])
  else if SAFE_STRING_COMMANDS.contains cmdLower then
    mongoSafeLiteral ox cmdLower
  else if pyStartsWith cmd "db." then
    match parse_shell_command cmd with
    | some (coll, pop, pparams, chained) => mongoShellBranch ox coll pop pparams chained
    | Option.none => (.ok (.errDict "Invalid MongoDB shell command format"), [])
  else (.ok (.errDict "Command not supported in read-only mode"), [])

def jsonQuoteChar (c : Char) : List Char :=
  if c = chQuote then [chBackslash, chQuote]
  else if c = chBackslash then [chBackslash, chBackslash]
  else if c = Char.ofNat 10 then [chBackslash, 'n']
  else if c = Char.ofNat 9 then [chBackslash, 't']
  else if c = Char.ofNat 13 then [chBackslash, 'r']
  else [c]

def jsonQuote (s : String) : String :=
  String.mk (chQuote :: (s.toList.flatMap jsonQuoteChar ++ [chQuote]))

mutual

/-- Python json.dumps with default separators; string escaping is modelled
for the characters that can appear in gateway commands. -/
def pyJsonDumps : PyVal → String
  | .none => "null"
  | .bool true => "true"
  | .bool false => "false"
  | .int n => toString n
  | .str s => jsonQuote s
  | .list l => "[" ++ pyJsonDumpsList l ++ "]"
  | .dict l => "\x7b" ++ pyJsonDumpsFields l ++ "\x7d"

def pyJsonDumpsList : List PyVal → String
  | [] => ""
  | [v] => pyJsonDumps v
  | v :: rest => pyJsonDumps v ++ ", " ++ pyJsonDumpsList rest

def pyJsonDumpsFields : List (String × PyVal) → String
  | [] => ""
  | [(k, v)] => jsonQuote k ++ ": " ++ pyJsonDumps v
  | (k, v) :: rest => jsonQuote k ++ ": " ++ pyJsonDumps v ++ ", " ++ pyJsonDumpsFields rest

end

/-- Python or over values: the first operand if truthy, else the second. -/
def pyOr (a b : PyVal) : PyVal := if pyTruthy a then a else b

/-- The sort argument passed to a cursor: the items list when the given
sort is a dict, the raw value otherwise. -/
def sortArgOf (v : PyVal) : PyVal :=
  match v with
  | .dict fs => .list (fs.map (fun kv => .list [.str kv.1, kv.2]))
  | _ => v

/-- The dict-command branch of execute_query, mirroring the dispatch over
top-level keys; faults here reach only the outer handler. -/
def mongoExecuteDict (ox : MongoOracle) (fields : List (String × PyVal)) :
    Except PyExc MongoRes × MTrace :=
  if contains_unsafe_operations (pyJsonDumps (.dict fields)) then
    (.ok (.errDict "Operation blocked - only read operations are permitted"), [])
  else if dictHasKey fields "find" then
    match (dictGet fields "find").getD .none with
    | .str cn =>
      let filter := (dictGet fields "filter").getD (.dict [])
      let projection := (dictGet fields "projection").getD .none
      let sortv := (dictGet fields "sort").getD .none
      let limitv := (dictGet fields "limit").getD .none
      let skipv := (dictGet fields "skip").getD .none
      let hintv := (dictGet fields "hint").getD .none
      let mtv := (dictGet fields "maxTimeMS").getD .none
      let spec : CursorSpec :=
        { filter := filter
          projection := some (pyOr projection (.dict []))
          sort := if pyTruthy sortv then some (sortArgOf sortv) else Option.none
          limit := if pyTruthy limitv then some limitv else Option.none
          skip := if pyTruthy skipv then some skipv else Option.none
          hint := if pyTruthy hintv then some hintv else Option.none
          maxTimeMs := if pyTruthy mtv then some mtv else Option.none }
      match ox.findDocs cn spec with
      | .ok docs =>
        if docs.isEmpty then (.ok (.val (.list [])), [.find cn spec])
        else (.ok (.val (json_util_roundtrip (.list docs))), [.find cn spec])
      | .error e => (.error (.backend e), [.find cn spec])
    | _ => (.error (.typeError "collection name must be a string"), [])
  else if dictHasKey fields "findOne" then
    match (dictGet fields "findOne").getD .none with
    | .str cn =>
      let filter := (dictGet fields "filter").getD (.dict [])
      let projection := (dictGet fields "projection").getD .none
      let projArg := pyOr projection (.dict [])
      match ox.findOne cn filter (some projArg) with
      | .error e => (.error (.backend e), [.findOne cn filter (some projArg)])
      | .ok (some doc) =>
        if pyTruthy doc then
          (.ok (.val (json_util_roundtrip doc)), [.findOne cn filter (some projArg)])
        else (.ok .pynone, [.findOne cn filter (some projArg)])
      | .ok Option.none => (.ok .pynone, [.findOne cn filter (some projArg)])
    | _ => (.error (.typeError "collection name must be a string"), [])
  else if dictHasKey fields "count" ∨ dictHasKey fields "countDocuments" ∨
      dictHasKey fields "distinct" ∨ dictHasKey fields "aggregate" then
    if dictHasKey fields "count" ∨ dictHasKey fields "countDocuments" then
      let opKey := if dictHasKey fields "count" then "count" else "countDocuments"
      match (dictGet fields opKey).getD .none with
      | .str cn =>
        let filter := (dictGet fields "filter").getD (.dict [])
        match ox.countDocuments cn filter with
        | .ok n => (.ok (.val (.int n)), [.countDocuments cn filter])
        | .error e => (.error (.backend e), [.countDocuments cn filter])
      | _ => (.error (.typeError "collection name must be a string"), [])
    else if dictHasKey fields "distinct" then
      let key := (dictGet fields "key").getD .none
      let filter := (dictGet fields "filter").getD (.dict [])
      if !pyTruthy key then
        (.ok (.errDict "distinct operation requires a 'key' parameter"), [])
      else
        match (dictGet fields "distinct").getD .none, key with
        | .str cn, .str ks =>
          match ox.distinct cn ks filter with
          | .ok l =>
            if l.isEmpty then (.ok (.val (.list [])), [.distinct cn ks filter])
            else (.ok (.val (json_util_roundtrip (.list l))), [.distinct cn ks filter])
          | .error e => (.error (.backend e), [.distinct cn ks filter])
        | _, _ => (.error (.typeError "invalid distinct arguments"), [])
    else
      let pipeline := (dictGet fields "pipeline").getD (.list [])
      match pyIter pipeline with
      | .error e => (.error e, [])
      | .ok stages =>
        match checkStagesLoop stages with
        | .error e => (.error e, [])
        | .ok true => (.ok (.errDict "Unsafe aggregation stage detected"), [])
        | .ok false =>
          match (dictGet fields "aggregate").getD .none with
          | .str cn =>
            match ox.aggregate cn pipeline with
            | .ok docs =>
              if docs.isEmpty then (.ok (.val (.list [])), [.aggregate cn pipeline])
              else
                (.ok (.val (json_util_roundtrip (.list docs))), [.aggregate cn pipeline])
            | .error e => (.error (.backend e), [.aggregate cn pipeline])
          | _ => (.error (.typeError "collection name must be a string"), [])
  else if dictHasKey fields "listCollections" then
    let filter := (dictGet fields "filter").getD (.dict [])
    match ox.listCollections filter with
    | .ok l => (.ok (.val (.list l)), [.listCollections filter])
    | .error e => (.error (.backend e), [.listCollections filter])
  else if dictHasKey fields "collStats" ∨ dictHasKey fields "collstats" then
    let cn := pyOr ((dictGet fields "collStats").getD .none)
      ((dictGet fields "collstats").getD .none)
    match ox.command (.str "collstats") (some cn) with
    | .ok v => (.ok (.val v), [.command (.str "collstats") (some cn)])
    | .error e => (.error (.backend e), [.command (.str "collstats") (some cn)])
  else
    match fields.head? with
    | some (op, _) =>
      if SAFE_DICT_OPERATIONS.contains op then
        match ox.command (.dict fields) Option.none with
        | .ok v => (.ok (.val v), [.command (.dict fields) Option.none])
        | .error e => (.error (.backend e), [.command (.dict fields) Option.none])
      else
        (.ok (.errDict ("Operation '" ++ op ++ "' not permitted in read-only mode")), [])
    | Option.none =>
      (.ok (.errDict "Operation 'None' not permitted in read-only mode"), [])

/-- The raw command handed to execute_query: a string, a dict, or any
other Python value. -/
inductive MongoCommand where
  | str (s : String)
  | dict (fields : List (String × PyVal))
  | other

/-- The body of the outer try of MongoDBManager.execute_query. -/
def mongoExecuteBody (ox : MongoOracle) : MongoCommand → Except PyExc MongoRes × MTrace
  | .str s => mongoExecuteString ox s
  | .dict fs => mongoExecuteDict ox fs
  | .other => (.ok (.errDict "Invalid command format"), [])

/-- MongoDBManager.execute_query: the missing-connection early return, the
body, and the outer handler mapping any fault to the error mapping. -/
def execute_query (hasClient hasDb : Bool) (ox : MongoOracle) (cmd : MongoCommand) :
    MongoRes × MTrace :=
  if !hasClient || !hasDb then (.pynone, [])
  else
    match mongoExecuteBody ox cmd with
    | (.ok r, tr) => (r, tr)
    | (.error e, tr) => (.errDict ("Query execution error: " ++ pyExcMsg e), tr)

/-- MongoDBManager.execute_query_to_dataframe: every parameter except the
query dict is ignored and the call delegates to execute_query on the query
value. -/
def execute_query_to_dataframe (hasClient hasDb : Bool) (ox : MongoOracle)
    (collection : String) (query : List (String × PyVal))
    (projection sortArg : Option PyVal) (limit timeoutMs : Option Nat) :
    MongoRes × MTrace :=
  execute_query hasClient hasDb ox (.dict query)

/-- A driver oracle on an empty database: every call succeeds with an
empty result. -/
def mongoOracleEmpty : MongoOracle where
  listCollectionNames := .ok []
  listDatabaseNames := .ok []
  command := fun _ _ => .ok (.dict [])
  findDocs := fun _ _ => .ok []
  findOne := fun _ _ _ => .ok Option.none
  countDocuments := fun _ _ => .ok 0
  estimatedDocumentCount := fun _ => .ok 0
  distinct := fun _ _ _ => .ok []
  aggregate := fun _ _ => .ok []
  explain := fun _ _ => .ok (.dict [])
  listCollections := fun _ => .ok []

/-- A driver oracle whose buildInfo command reports a server version. -/
def mongoOracleVersion : MongoOracle :=
  { mongoOracleEmpty with
    command := fun _ _ => .ok (.dict [("version", .str "7.0.0")]) }

/-- A destructive aggregation stage: a stage object carrying a dollar-out
or dollar-merge operator key. -/
def isUnsafeStage : PyVal → Bool
  | .dict fs => fs.any (fun kv => kv.1 = "$out" ∨ kv.1 = "$merge")
  | _ => false

/-- An aggregation command whose pipeline contains a destructive stage, in
either surface form: a shell text whose parse dispatches to the aggregate
handler with such a pipeline, or a dict command whose key dispatch selects
the aggregate branch with such a pipeline. -/
def AggregationWithUnsafeStage : MongoCommand → Prop
  | .str s =>
    ∃ coll pparams chain stages,
      parse_shell_command (pyStrip s) = some (coll, "aggregate", pparams, chain) ∧
      coll ≠ "getCollectionNames()" ∧
      safe_eval_params pparams = .ok (.list stages) ∧
      ∃ st ∈ stages, isUnsafeStage st = true
  | .dict fs =>
    dictHasKey fs "find" = false ∧ dictHasKey fs "findOne" = false ∧
    dictHasKey fs "count" = false ∧ dictHasKey fs "countDocuments" = false ∧
    dictHasKey fs "distinct" = false ∧ dictHasKey fs "aggregate" = true ∧
    ∃ stages, dictGet fs "pipeline" = some (.list stages) ∧
      ∃ st ∈ stages, isUnsafeStage st = true
  | .other => False

end Mongo

namespace Postgres

/-- Mutating keywords of PostgresDBManager.contains_unsafe_operations. -/
def UNSAFE_KEYWORDS : List String :=
  ["INSERT", "UPDATE", "DELETE", "DROP", "CREATE", "ALTER", "TRUNCATE",
   "GRANT", "REVOKE", "VACUUM", "CLUSTER", "REINDEX",
   "EXECUTE", "CALL", "DO", "LOCK", "UNLISTEN", "NOTIFY",
   "SECURITY LABEL", "PREPARE", "DEALLOCATE", "SAVEPOINT", "RELEASE",
   "COMMIT", "ROLLBACK", "BEGIN", "START", "END", "CHECKPOINT",
   "DECLARE", "FETCH", "MOVE", "CLOSE", "LISTEN", "UNLOCK",
   "ANALYZE", "LOAD", "COPY"]

/-- Dangerous functions of PostgresDBManager.contains_unsafe_operations. -/
def UNSAFE_FUNCTIONS : List String :=
  ["PG_SLEEP", "PG_READ_FILE", "PG_EXECUTE", "LO_IMPORT", "LO_EXPORT",
   "PG_TERMINATE_BACKEND", "PG_RELOAD_CONF", "PG_ROTATE_LOGFILE"]

/-- Keywords scanned inside a WITH statement by is_read_only_query; note
the check there is plain substring containment, not word-boundary. -/
def CTE_UNSAFE_KEYWORDS : List String :=
  ["INSERT", "UPDATE", "DELETE", "DROP", "CREATE", "ALTER", "TRUNCATE"]

/-- PostgresDBManager.is_read_only_query on the normalized (stripped,
upper-cased) query text. -/
def is_read_only_query (sql : String) : Bool :=
  if pyStartsWith sql "SELECT" then true
  else if pyStartsWith sql "EXPLAIN " then true
  else if pyStartsWith sql "SHOW " then true
  else if pyStartsWith sql "DESCRIBE " then true
  else if pyStartsWith sql "WITH " then
    !(CTE_UNSAFE_KEYWORDS.any (fun k => substrContains sql k))
  else false

/-- PostgresDBManager.contains_unsafe_operations: word-boundary search of
the keywords, then function-call search of the dangerous functions. -/
def contains_unsafe_operations (sql : String) : Bool :=
  UNSAFE_KEYWORDS.any (fun k => reSearch k true wordEndCk sql) ||
  UNSAFE_FUNCTIONS.any (fun f => reSearch f true parenAfterWsCk sql)

/-- The combined policy gate of execute_query (the guard of line 114 in
positive form). -/
def queryAllowed (normalized : String) : Bool :=
  is_read_only_query normalized && !(contains_unsafe_operations normalized)

/-- Session state relevant to the gateway: the statement timeout the
connection currently runs under.  The connection options default it to
300000 milliseconds. -/
structure PgSession where
  statementTimeout : Nat

def defaultPgSession : PgSession := { statementTimeout := 300000 }

/-- Outcome of one cursor.execute plus fetchall on the driver. -/
inductive PgRunOutcome where
  | rows (l : List (List String))
  | progErr (msg : String)
  | fail (msg : String)

/-- The psycopg2 driver as an oracle: running a query under a session
yields rows, a ProgrammingError, or another fault; readSql models
pd.read_sql with the none result standing for a raised exception. -/
structure PgOracle where
  run : String → List String → Nat → PgRunOutcome
  readSql : String → Nat → Option (List (List String))

/-- One recorded call on the PostgreSQL connection. -/
inductive PgCall where
  | setTimeout (ms : Nat)
  | exec (q : String) (params : List String) (timeoutInEffect : Nat)
  | rollback
  | commit

/-- Results of PostgresDBManager.execute_query. -/
inductive PgRes where
  | pynone
  | rows (l : List (List String))
  | errDict (msg : String)

/-- The body of the try of execute_query: policy gate, optional per-call
timeout override (a session-level SET that is never restored), the query
call, and the ProgrammingError handler; other faults propagate to the
outer handler as the error case. -/
def executeBody (sess : PgSession) (ox : PgOracle) (query : String)
    (params : List String) (timeout : Option Nat) :
    Except String PgRes × List PgCall × PgSession :=
  let normalized := pyUpper (pyStrip query)
  if !(is_read_only_query normalized) || contains_unsafe_operations normalized then
    (.ok (.errDict "Operation blocked -  Non-read operation detected in query"), [], sess)
  else
    let (tr1, s1) : List PgCall × PgSession :=
      match timeout with
      | some t => if t ≠ 0 then ([.setTimeout t], { statementTimeout := t }) else ([], sess)
      | Option.none => ([], sess)
    match ox.run query params s1.statementTimeout with
    | .rows rs => (.ok (.rows rs), tr1 ++ [.exec query params s1.statementTimeout], s1)
    | .progErr m =>
      (.ok (.errDict ("Unexpected error with read-only query: " ++ m)),
        tr1 ++ [.exec query params s1.statementTimeout, .rollback], s1)
    | .fail m => (.error m, tr1 ++ [.exec query params s1.statementTimeout], s1)

/-- PostgresDBManager.execute_query: missing-connection early return, the
body, and the outer handler performing a rollback and returning the error
mapping. -/
def execute_query (conn : Bool) (sess : PgSession) (ox : PgOracle) (query : String)
    (params : List String) (timeout : Option Nat) : PgRes × List PgCall × PgSession :=
  if !conn then (.pynone, [], sess)
  else
    match executeBody sess ox query params timeout with
    | (.ok r, tr, s) => (r, tr, s)
    | (.error m, tr, s) =>
      (.errDict ("Query execution failed: " ++ m), tr ++ [.rollback], s)

/-- PostgresDBManager.execute_query_to_dataframe: no policy evaluation at
all; optional timeout override (set and committed), then pd.read_sql on
the raw query; an exception yields the none result after the call was
already issued. -/
def execute_query_to_dataframe (conn : Bool) (sess : PgSession) (ox : PgOracle)
    (query : String) (timeout : Option Nat) :
    Option (List (List String)) × List PgCall × PgSession :=
  if !conn then (Option.none, [], sess)
  else
    let (tr1, s1) : List PgCall × PgSession :=
      match timeout with
      | some t =>
        if t ≠ 0 then ([.setTimeout t, .commit], { statementTimeout := t })
        else ([], sess)
      | Option.none => ([], sess)
    match ox.readSql query s1.statementTimeout with
    | some df => (some df, tr1 ++ [.exec query [] s1.statementTimeout], s1)
    | Option.none => (Option.none, tr1 ++ [.exec query [] s1.statementTimeout], s1)

/-- The timeouts in effect at each query execution recorded in a trace. -/
def execTimeouts (tr : List PgCall) : List Nat :=
  tr.filterMap (fun c => match c with
    | .exec _ _ n => some n
    | _ => Option.none)

/-- A driver oracle that returns no rows and an empty dataframe for every
query. -/
def pgOracleEmptyRows : PgOracle where
  run := fun _ _ _ => .rows []
  readSql := fun _ _ => some []

end Postgres

namespace MySQLDB

/-- Mutating keywords of MySQLDBManager.contains_unsafe_operations. -/
def UNSAFE_KEYWORDS : List String :=
  ["INSERT", "UPDATE", "DELETE", "DROP", "CREATE", "ALTER", "TRUNCATE",
   "GRANT", "REVOKE", "OPTIMIZE", "REPAIR", "ANALYZE",
   "CALL", "DO", "LOCK", "UNLOCK",
   "PREPARE", "DEALLOCATE", "SAVEPOINT", "RELEASE",
   "COMMIT", "ROLLBACK", "START", "BEGIN", "END", "XA",
   "FLUSH", "RESET", "PURGE", "CHANGE", "SHUTDOWN",
   "KILL", "LOAD", "HANDLER"]

/-- Dangerous functions of MySQLDBManager.contains_unsafe_operations. -/
def UNSAFE_FUNCTIONS : List String :=
  ["SLEEP", "BENCHMARK", "LOAD_FILE", "FOUND_ROWS", "DATABASE",
   "USER", "SYSTEM_USER", "SESSION_USER", "PASSWORD", "ENCRYPT",
   "COMPRESS", "ENCODE", "DECODE"]

def CTE_UNSAFE_KEYWORDS : List String :=
  ["INSERT", "UPDATE", "DELETE", "DROP", "CREATE", "ALTER", "TRUNCATE"]

/-- MySQLDBManager.is_read_only_query, identical in shape to the
PostgreSQL version. -/
def is_read_only_query (sql : String) : Bool :=
  if pyStartsWith sql "SELECT" then true
  else if pyStartsWith sql "EXPLAIN " then true
  else if pyStartsWith sql "SHOW " then true
  else if pyStartsWith sql "DESCRIBE " then true
  else if pyStartsWith sql "WITH " then
    !(CTE_UNSAFE_KEYWORDS.any (fun k => substrContains sql k))
  else false

/-- MySQLDBManager.contains_unsafe_operations. -/
def contains_unsafe_operations (sql : String) : Bool :=
  UNSAFE_KEYWORDS.any (fun k => reSearch k true wordEndCk sql) ||
  UNSAFE_FUNCTIONS.any (fun f => reSearch f true parenAfterWsCk sql)

def queryAllowed (normalized : String) : Bool :=
  is_read_only_query normalized && !(contains_unsafe_operations normalized)

/-- MySQL session variables the gateway sets; connect defaults them to
300000 milliseconds and 300 seconds. -/
structure MySession where
  maxExecutionTime : Nat
  waitTimeout : Nat
  interactiveTimeout : Nat

def defaultMySession : MySession :=
  { maxExecutionTime := 300000, waitTimeout := 300, interactiveTimeout := 300 }

/-- Outcome of one cursor.execute plus fetchall on the MySQL driver; an
InterfaceError carries its message for the no-result-set test. -/
inductive MyRunOutcome where
  | rows (l : List (List String))
  | interfaceErr (msg : String)
  | fail (msg : String)

/-- The mysql.connector driver as an oracle; maxExecSupported models
whether SET max_execution_time raises the unknown-system-variable error
that the source catches. -/
structure MySQLOracle where
  maxExecSupported : Bool
  run : String → List String → MySession → MyRunOutcome

inductive MyCall where
  | setVar (name : String) (val : Nat)
  | exec (q : String) (params : List String)
  | rollback

inductive MyRes where
  | pynone
  | rows (l : List (List String))
  | errDict (msg : String)

/-- The body of the try of MySQLDBManager.execute_query: policy gate, the
per-call timeout override (with the unknown-variable fallback to the
session timeouts, none of them restored afterwards), the query, and the
InterfaceError handling. -/
def executeBody (sess : MySession) (ox : MySQLOracle) (query : String)
    (params : List String) (timeout : Option Nat) :
    Except String MyRes × List MyCall × MySession :=
  let normalized := pyUpper (pyStrip query)
  if !(is_read_only_query normalized) || contains_unsafe_operations normalized then
    (.ok (.errDict "Operation blocked - Non-read operation detected in query"), [], sess)
  else
    let (tr1, s1) : List MyCall × MySession :=
      match timeout with
      | some t =>
        if t ≠ 0 then
          if ox.maxExecSupported then
            ([.setVar "max_execution_time" t], { sess with maxExecutionTime := t })
          else
            ([.setVar "wait_timeout" (t / 1000 + 1),
              .setVar "interactive_timeout" (t / 1000 + 1)],
              { sess with waitTimeout := t / 1000 + 1,
                          interactiveTimeout := t / 1000 + 1 })
        else ([], sess)
      | Option.none => ([], sess)
    match ox.run query params s1 with
    | .rows rs => (.ok (.rows rs), tr1 ++ [.exec query params], s1)
    | .interfaceErr m =>
      if substrContains m "No result set to fetch from" then
        (.ok (.rows []), tr1 ++ [.exec query params], s1)
      else
        (.ok (.errDict ("Unexpected error with read-only query: " ++ m)),
          tr1 ++ [.exec query params, .rollback], s1)
    | .fail m => (.error m, tr1 ++ [.exec query params], s1)

/-- MySQLDBManager.execute_query with the outer handler. -/
def execute_query (conn : Bool) (sess : MySession) (ox : MySQLOracle) (query : String)
    (params : List String) (timeout : Option Nat) : MyRes × List MyCall × MySession :=
  if !conn then (.pynone, [], sess)
  else
    match executeBody sess ox query params timeout with
    | (.ok r, tr, s) => (r, tr, s)
    | (.error m, tr, s) =>
      (.errDict ("Query execution failed: " ++ m), tr ++ [.rollback], s)

def mysqlOracleEmptyRows : MySQLOracle where
  maxExecSupported := true
  run := fun _ _ _ => .rows []

end MySQLDB

/-!
Helper lemmas.
-/

theorem prevCharOf_cons (prev : Option Char) (c : Char) (pre : List Char) :
    prevCharOf prev (c :: pre) = prevCharOf (some c) pre := rfl

theorem scanFrom_iff (lit : List Char) (leftB : Bool) (rightCk : List Char → Bool)
    (hlit : lit ≠ []) :
    ∀ (s : List Char) (prev : Option Char),
      scanFrom lit leftB rightCk prev s = true ↔
        ∃ pre post, s = pre ++ lit ++ post ∧
          (leftB = true → isWordCharOpt (prevCharOf prev pre) = false) ∧
          rightCk post = true := by
  intro s
  induction s with
  | nil =>
    intro prev
    simp only [scanFrom]
    constructor
    · intro h; cases h
    · rintro ⟨pre, post, h, -, -⟩
      have hlen := congrArg List.length h
      simp only [List.length_nil, List.length_append] at hlen
      exact absurd (List.length_eq_zero.mp (by omega)) hlit
  | cons c rest ih =>
    intro prev
    simp only [scanFrom, Bool.or_eq_true]
    constructor
    · rintro (hm | hr)
      · unfold scanMatchAt at hm
        simp only [Bool.and_eq_true] at hm
        obtain ⟨⟨hp, hl⟩, hrck⟩ := hm
        obtain ⟨post, hpost⟩ := List.isPrefixOf_iff_prefix.mp hp
        refine ⟨[], post, by simp [hpost.symm], ?_, ?_⟩
        · intro hlb
          subst hlb
          simp only [Bool.or_eq_true, Bool.not_eq_true'] at hl
          rcases hl with h | h
          · cases h
          · simpa [prevCharOf] using h
        · rw [← hpost, List.drop_left] at hrck
          exact hrck
      · obtain ⟨pre, post, heq, hleft, hrck⟩ := (ih (some c)).mp hr
        refine ⟨c :: pre, post, by simp [heq], ?_, hrck⟩
        intro hlb
        rw [prevCharOf_cons]
        exact hleft hlb
    · rintro ⟨pre, post, heq, hleft, hrck⟩
      cases pre with
      | nil =>
        left
        unfold scanMatchAt
        simp only [Bool.and_eq_true]
        simp only [List.nil_append] at heq
        refine ⟨⟨?_, ?_⟩, ?_⟩
        · exact List.isPrefixOf_iff_prefix.mpr ⟨post, heq.symm⟩
        · cases leftB with
          | false => simp
          | true =>
            have h2 := hleft rfl
            simp only [prevCharOf] at h2
            simp [h2]
        · rw [heq, List.drop_left]
          exact hrck
      | cons p pre' =>
        right
        rw [List.cons_append, List.cons_append] at heq
        injection heq with hc hrest
        subst hc
        refine (ih (some c)).mpr ⟨pre', post, hrest, ?_, hrck⟩
        intro hlb
        rw [← prevCharOf_cons prev c pre']
        exact hleft hlb

theorem reSearch_iff (lit : String) (leftB : Bool) (rightCk : List Char → Bool)
    (hlit : lit.toList ≠ []) (s : String) :
    reSearch lit leftB rightCk s = true ↔
      OccurSpec lit.toList leftB rightCk s.toList := by
  unfold reSearch OccurSpec
  exact scanFrom_iff lit.toList leftB rightCk hlit s.toList none

theorem pg_scan_iff (s : String) :
    Postgres.contains_unsafe_operations s = true ↔
      (∃ k ∈ Postgres.UNSAFE_KEYWORDS, OccurSpec k.toList true wordEndCk s.toList) ∨
      (∃ f ∈ Postgres.UNSAFE_FUNCTIONS, OccurSpec f.toList true parenAfterWsCk s.toList) := by
  have hkw : Postgres.UNSAFE_KEYWORDS.all (fun k => !k.toList.isEmpty) = true := by decide
  have hfn : Postgres.UNSAFE_FUNCTIONS.all (fun f => !f.toList.isEmpty) = true := by decide
  unfold Postgres.contains_unsafe_operations
  rw [Bool.or_eq_true, List.any_eq_true, List.any_eq_true]
  constructor
  · rintro (⟨k, hk, hs⟩ | ⟨f, hf, hs⟩)
    · refine Or.inl ⟨k, hk, (reSearch_iff k true wordEndCk ?_ s).mp hs⟩
      have := List.all_eq_true.mp hkw k hk
      simpa [List.isEmpty_iff] using this
    · refine Or.inr ⟨f, hf, (reSearch_iff f true parenAfterWsCk ?_ s).mp hs⟩
      have := List.all_eq_true.mp hfn f hf
      simpa [List.isEmpty_iff] using this
  · rintro (⟨k, hk, ho⟩ | ⟨f, hf, ho⟩)
    · refine Or.inl ⟨k, hk, (reSearch_iff k true wordEndCk ?_ s).mpr ho⟩
      have := List.all_eq_true.mp hkw k hk
      simpa [List.isEmpty_iff] using this
    · refine Or.inr ⟨f, hf, (reSearch_iff f true parenAfterWsCk ?_ s).mpr ho⟩
      have := List.all_eq_true.mp hfn f hf
      simpa [List.isEmpty_iff] using this

theorem mongo_scan_iff (s : String) :
    Mongo.contains_unsafe_operations s = true ↔
      ∃ p ∈ Mongo.UNSAFE_PATTERNS,
        OccurSpec p.lit.toList p.wordStart wordEndCk (Mongo.mongoScrub s).toList := by
  have hne : Mongo.UNSAFE_PATTERNS.all (fun p => !p.lit.toList.isEmpty) = true := by decide
  unfold Mongo.contains_unsafe_operations
  rw [List.any_eq_true]
  constructor
  · rintro ⟨p, hp, hs⟩
    refine ⟨p, hp, (reSearch_iff p.lit p.wordStart wordEndCk ?_ _).mp hs⟩
    have := List.all_eq_true.mp hne p hp
    simpa [List.isEmpty_iff] using this
  · rintro ⟨p, hp, ho⟩
    refine ⟨p, hp, (reSearch_iff p.lit p.wordStart wordEndCk ?_ _).mpr ho⟩
    have := List.all_eq_true.mp hne p hp
    simpa [List.isEmpty_iff] using this

theorem splitFirstDot_decomp :
    ∀ (l a r : List Char), Mongo.splitFirstDot l = some (a, r) → l = a ++ '.' :: r := by
  intro l
  induction l with
  | nil => intro a r h; exact absurd h (by simp [Mongo.splitFirstDot])
  | cons c rest ih =>
    intro a r h
    unfold Mongo.splitFirstDot at h
    by_cases hc : c = '.'
    · simp only [hc, if_true] at h
      injection h with h1
      injection h1 with ha hr
      subst ha; subst hr
      simp [hc]
    · simp only [hc, if_false] at h
      cases hsp : Mongo.splitFirstDot rest with
      | none => rw [hsp] at h; cases h
      | some pr =>
        obtain ⟨a', r'⟩ := pr
        rw [hsp] at h
        injection h with h1
        injection h1 with ha hr
        subst hr
        subst ha
        simp [ih a' r' hsp]

theorem pySplit2Dot_three (s : String) (a b c : String)
    (h : Mongo.pySplit2Dot s = [a, b, c]) :
    s.toList = a.toList ++ '.' :: (b.toList ++ '.' :: c.toList) := by
  unfold Mongo.pySplit2Dot at h
  cases h1 : Mongo.splitFirstDot s.toList with
  | none => rw [h1] at h; cases h
  | some pr1 =>
    obtain ⟨a1, r1⟩ := pr1
    rw [h1] at h
    dsimp only at h
    cases h2 : Mongo.splitFirstDot r1 with
    | none => rw [h2] at h; cases h
    | some pr2 =>
      obtain ⟨b1, r2⟩ := pr2
      rw [h2] at h
      dsimp only at h
      injection h with ha h
      injection h with hb h
      injection h with hc h
      have e1 := splitFirstDot_decomp _ _ _ h1
      have e2 := splitFirstDot_decomp _ _ _ h2
      subst ha; subst hb; subst hc
      rw [e1, e2]
      rfl

theorem parse_shell_startsWith (cmd : String) (x : String × String × String × List (String × String))
    (h : Mongo.parse_shell_command cmd = some x) : pyStartsWith cmd "db." = true := by
  unfold Mongo.parse_shell_command at h
  by_cases hs : pyStartsWith cmd "db." = true
  · exact hs
  · rw [Bool.not_eq_true] at hs
    rw [hs] at h
    simp at h

theorem parse_shell_dots (cmd : String) (x : String × String × String × List (String × String))
    (h : Mongo.parse_shell_command cmd = some x) : 2 ≤ cmd.toList.count '.' := by
  unfold Mongo.parse_shell_command at h
  by_cases hs : pyStartsWith cmd "db." = true
  · rw [hs, if_pos rfl] at h
    cases hsp : Mongo.pySplit2Dot cmd with
    | nil => rw [hsp] at h; simp at h
    | cons p1 t1 =>
      cases t1 with
      | nil => rw [hsp] at h; simp at h
      | cons p2 t2 =>
        cases t2 with
        | nil => rw [hsp] at h; simp at h
        | cons p3 t3 =>
          cases t3 with
          | nil =>
            have hdec := pySplit2Dot_three cmd p1 p2 p3 hsp
            rw [hdec]
            simp only [List.count_append, List.count_cons]
            have hd : ('.' == '.') = true := by decide
            simp only [hd, if_true]
            omega
          | cons p4 t4 => rw [hsp] at h; simp at h
  · rw [Bool.not_eq_true] at hs
    rw [hs] at h
    simp at h

theorem count_dot_map_toLower (l : List Char) :
    l.count '.' ≤ (l.map Char.toLower).count '.' := by
  induction l with
  | nil => simp
  | cons c rest ih =>
    simp only [List.map_cons, List.count_cons]
    by_cases hc : c = '.'
    · subst hc
      have hlow : Char.toLower '.' = '.' := by decide
      rw [hlow]
      omega
    · have h1 : (c == '.') = false := beq_eq_false_iff_ne.mpr hc
      rw [h1]
      simp only [Bool.false_eq_true, if_false]
      split <;> omega

theorem lower_dots (s : String) : s.toList.count '.' ≤ (pyLower s).toList.count '.' := by
  unfold pyLower
  simpa using count_dot_map_toLower s.toList

theorem parse_not_safe_literal (cmd : String)
    (x : String × String × String × List (String × String))
    (h : Mongo.parse_shell_command cmd = some x) :
    Mongo.SAFE_STRING_COMMANDS.contains (pyLower cmd) = false := by
  have hsafe : Mongo.SAFE_STRING_COMMANDS.all (fun t => t.toList.count '.' ≤ 1) = true := by decide
  by_contra hcon
  rw [Bool.not_eq_false] at hcon
  have hmem : pyLower cmd ∈ Mongo.SAFE_STRING_COMMANDS := List.elem_iff.mp hcon
  have h1 : (pyLower cmd).toList.count '.' ≤ 1 := by
    simpa using List.all_eq_true.mp hsafe _ hmem
  have h2 := parse_shell_dots cmd x h
  have h3 := lower_dots cmd
  omega

theorem mongoExecuteString_dispatch (ox : Mongo.MongoOracle) (raw coll pop pparams : String)
    (chain : List (String × String))
    (hparse : Mongo.parse_shell_command (pyStrip raw) = some (coll, pop, pparams, chain))
    (hscan : Mongo.contains_unsafe_operations (pyLower (pyStrip raw)) = false) :
    Mongo.mongoExecuteString ox raw = Mongo.mongoShellBranch ox coll pop pparams chain := by
  have hsw := parse_shell_startsWith _ _ hparse
  have hns := parse_not_safe_literal _ _ hparse
  unfold Mongo.mongoExecuteString
  dsimp only
  rw [hscan, hns, hsw, hparse]
  simp

theorem checkStagesLoop_hits (stages : List PyVal)
    (h : ∃ st ∈ stages, Mongo.isUnsafeStage st = true) :
    Mongo.checkStagesLoop stages ≠ .ok false := by
  induction stages with
  | nil => simp at h
  | cons st rest ih =>
    obtain ⟨st', hmem, hst⟩ := h
    rcases List.mem_cons.mp hmem with rfl | hmem'
    · obtain ⟨fs, hfs⟩ : ∃ fs, st' = PyVal.dict fs := by
        cases st' <;> simp [Mongo.isUnsafeStage] at hst ⊢
      subst hfs
      simp only [Mongo.isUnsafeStage, List.any_eq_true] at hst
      obtain ⟨kv, hkv, hk⟩ := hst
      have hb : (fs.any (fun kv => kv.1 = "$out") = true) ∨
          (fs.any (fun kv => kv.1 = "$merge") = true) := by
        rcases of_decide_eq_true hk with h1 | h2
        · exact Or.inl (List.any_eq_true.mpr ⟨kv, hkv, by simp [h1]⟩)
        · exact Or.inr (List.any_eq_true.mpr ⟨kv, hkv, by simp [h2]⟩)
      unfold Mongo.checkStagesLoop
      rcases hb with h1 | h2
      · simp [Mongo.pyInContains, h1, Bind.bind, Except.bind]
      · simp only [Mongo.pyInContains, Bind.bind, Except.bind]
        cases hq : fs.any (fun kv => kv.1 = "$out") <;> simp [hq, h2]
    · unfold Mongo.checkStagesLoop
      simp only [Bind.bind, Except.bind]
      cases h1 : Mongo.pyInContains "$out" st with
      | error e => simp
      | ok b1 =>
        cases b1 with
        | true => simp
        | false =>
          simp only [if_false]
          cases h2 : Mongo.pyInContains "$merge" st with
          | error e => simp
          | ok b2 =>
            cases b2 with
            | true => simp
            | false =>
              simpa using ih ⟨st', hmem', hst⟩

theorem safe_eval_params_empty (p : String) (h : pyStrip p = "") :
    Mongo.safe_eval_params p = .ok (.dict []) := by
  unfold Mongo.safe_eval_params
  rw [h]
  simp

theorem execute_query_str_ok (ox : Mongo.MongoOracle) (raw : String) (r : Mongo.MongoRes)
    (tr : Mongo.MTrace) (h : Mongo.mongoExecuteString ox raw = (.ok r, tr)) :
    Mongo.execute_query true true ox (.str raw) = (r, tr) := by
  simp [Mongo.execute_query, Mongo.mongoExecuteBody, h]

theorem execute_query_str_exc (ox : Mongo.MongoOracle) (raw : String) (e : PyExc)
    (tr : Mongo.MTrace) (h : Mongo.mongoExecuteString ox raw = (.error e, tr)) :
    Mongo.execute_query true true ox (.str raw) =
      (.errDict ("Query execution error: " ++ pyExcMsg e), tr) := by
  simp [Mongo.execute_query, Mongo.mongoExecuteBody, h]

theorem mongoShellOp_aggregate (ox : Mongo.MongoOracle) (coll pparams : String)
    (chain : List (String × String)) :
    Mongo.mongoShellOp ox coll "aggregate" pparams chain =
      Mongo.mongoAggregateOp ox coll pparams := rfl

theorem mongoShellOp_find (ox : Mongo.MongoOracle) (coll pparams : String)
    (chain : List (String × String)) :
    Mongo.mongoShellOp ox coll "find" pparams chain =
      Mongo.mongoFindOp ox coll pparams chain := rfl

theorem mongoAggregateOp_blocked (ox : Mongo.MongoOracle) (coll pparams : String)
    (stages : List PyVal)
    (hsep : Mongo.safe_eval_params pparams = .ok (.list stages))
    (hst : ∃ st ∈ stages, Mongo.isUnsafeStage st = true) :
    ∃ res, Mongo.mongoAggregateOp ox coll pparams = (res, []) ∧
      (res = .ok (some (.errDict "Unsafe aggregation stage detected")) ∨
       ∃ e, res = .error e) := by
  have hne : pyStrip pparams ≠ "" := by
    intro h
    rw [safe_eval_params_empty pparams h] at hsep
    injection hsep with h1
    cases h1
  unfold Mongo.mongoAggregateOp
  rw [if_pos hne, hsep]
  dsimp only [Mongo.pyIter]
  cases hck : Mongo.checkStagesLoop stages with
  | error e => exact ⟨.error e, rfl, Or.inr ⟨e, rfl⟩⟩
  | ok b =>
    cases b with
    | true =>
      exact ⟨.ok (some (.errDict "Unsafe aggregation stage detected")), rfl, Or.inl rfl⟩
    | false => exact absurd hck (checkStagesLoop_hits stages hst)

theorem execute_query_dict_ok (ox : Mongo.MongoOracle) (fs : List (String × PyVal))
    (r : Mongo.MongoRes) (tr : Mongo.MTrace)
    (h : Mongo.mongoExecuteDict ox fs = (.ok r, tr)) :
    Mongo.execute_query true true ox (.dict fs) = (r, tr) := by
  simp [Mongo.execute_query, Mongo.mongoExecuteBody, h]

theorem mongoExecuteString_blocked (ox : Mongo.MongoOracle) (raw : String)
    (hscan : Mongo.contains_unsafe_operations (pyLower (pyStrip raw)) = true) :
    Mongo.mongoExecuteString ox raw =
      (.ok (.errDict "Operation blocked - only read operations are permitted"), []) := by
  unfold Mongo.mongoExecuteString
  dsimp only
  rw [hscan]
  simp

theorem c5_shell_case (ox : Mongo.MongoOracle) (raw coll pparams : String)
    (chain : List (String × String)) (stages : List PyVal)
    (hparse : Mongo.parse_shell_command (pyStrip raw) = some (coll, "aggregate", pparams, chain))
    (hcoll : coll ≠ "getCollectionNames()")
    (hsep : Mongo.safe_eval_params pparams = .ok (.list stages))
    (hst : ∃ st ∈ stages, Mongo.isUnsafeStage st = true) :
    ∃ msg, Mongo.execute_query true true ox (.str raw) = (.errDict msg, []) := by
  by_cases hscan : Mongo.contains_unsafe_operations (pyLower (pyStrip raw)) = true
  · exact ⟨_, execute_query_str_ok _ _ _ _ (mongoExecuteString_blocked ox raw hscan)⟩
  · have hscan' : Mongo.contains_unsafe_operations (pyLower (pyStrip raw)) = false :=
      Bool.not_eq_true _ ▸ (by simpa using hscan)
    have hdisp := mongoExecuteString_dispatch ox raw coll "aggregate" pparams chain hparse hscan'
    by_cases hc0 : coll = ""
    · have hbr : Mongo.mongoShellBranch ox coll "aggregate" pparams chain =
          (.ok (.errDict "Invalid MongoDB shell command format"), []) := by
        unfold Mongo.mongoShellBranch
        rw [if_neg hcoll, if_pos (Or.inl hc0)]
      exact ⟨_, execute_query_str_ok _ _ _ _ (hdisp.trans hbr)⟩
    · have hcond : ¬ (coll = "" ∨ ("aggregate" : String) = "") :=
        not_or.mpr ⟨hc0, by decide⟩
      obtain ⟨res, hop, hres⟩ := mongoAggregateOp_blocked ox coll pparams stages hsep hst
      rcases hres with rfl | ⟨e, rfl⟩
      · have hbr : Mongo.mongoShellBranch ox coll "aggregate" pparams chain =
            (.ok (.errDict "Unsafe aggregation stage detected"), []) := by
          unfold Mongo.mongoShellBranch
          rw [if_neg hcoll, if_neg hcond, mongoShellOp_aggregate, hop]
        exact ⟨_, execute_query_str_ok _ _ _ _ (hdisp.trans hbr)⟩
      · have hbr : Mongo.mongoShellBranch ox coll "aggregate" pparams chain =
            (.ok (.errDict ("Error executing command: " ++ pyExcMsg e)), []) := by
          unfold Mongo.mongoShellBranch
          rw [if_neg hcoll, if_neg hcond, mongoShellOp_aggregate, hop]
        exact ⟨_, execute_query_str_ok _ _ _ _ (hdisp.trans hbr)⟩

theorem execute_query_dict_exc (ox : Mongo.MongoOracle) (fs : List (String × PyVal))
    (e : PyExc) (tr : Mongo.MTrace)
    (h : Mongo.mongoExecuteDict ox fs = (.error e, tr)) :
    Mongo.execute_query true true ox (.dict fs) =
      (.errDict ("Query execution error: " ++ pyExcMsg e), tr) := by
  simp [Mongo.execute_query, Mongo.mongoExecuteBody, h]

theorem c5_dict_case (ox : Mongo.MongoOracle) (fs : List (String × PyVal))
    (stages : List PyVal)
    (hfind : dictHasKey fs "find" = false)
    (hfindone : dictHasKey fs "findOne" = false)
    (hcount : dictHasKey fs "count" = false)
    (hcountd : dictHasKey fs "countDocuments" = false)
    (hdist : dictHasKey fs "distinct" = false)
    (hagg : dictHasKey fs "aggregate" = true)
    (hpipe : dictGet fs "pipeline" = some (.list stages))
    (hst : ∃ st ∈ stages, Mongo.isUnsafeStage st = true) :
    ∃ msg, Mongo.execute_query true true ox (.dict fs) = (.errDict msg, []) := by
  by_cases hscan : Mongo.contains_unsafe_operations (Mongo.pyJsonDumps (.dict fs)) = true
  · have hblk : Mongo.mongoExecuteDict ox fs =
        (.ok (.errDict "Operation blocked - only read operations are permitted"), []) := by
      unfold Mongo.mongoExecuteDict
      rw [hscan]
      simp
    exact ⟨_, execute_query_dict_ok _ _ _ _ hblk⟩
  · have hscan' : Mongo.contains_unsafe_operations (Mongo.pyJsonDumps (.dict fs)) = false := by
      simpa using hscan
    have hmain : ∃ res, Mongo.mongoExecuteDict ox fs = (res, []) ∧
        ((∃ msg, res = .ok (.errDict msg)) ∨ (∃ e, res = .error e)) := by
      unfold Mongo.mongoExecuteDict
      rw [hscan', hfind, hfindone, hcount, hcountd, hdist, hagg, hpipe]
      simp only [Bool.false_eq_true, if_false, false_or, or_true, if_true, Option.getD_some]
      dsimp only [Mongo.pyIter]
      cases hck : Mongo.checkStagesLoop stages with
      | error e => exact ⟨.error e, rfl, Or.inr ⟨e, rfl⟩⟩
      | ok b =>
        cases b with
        | true =>
          exact ⟨.ok (.errDict "Unsafe aggregation stage detected"), rfl, Or.inl ⟨_, rfl⟩⟩
        | false => exact absurd hck (checkStagesLoop_hits stages hst)
    obtain ⟨res, hres, hcase⟩ := hmain
    rcases hcase with ⟨msg, rfl⟩ | ⟨e, rfl⟩
    · exact ⟨msg, execute_query_dict_ok _ _ _ _ hres⟩
    · exact ⟨_, execute_query_dict_exc _ _ _ _ hres⟩

theorem mongoFindOp_empty (ox : Mongo.MongoOracle) (coll pparams : String)
    (chain : List (String × String)) (f : PyVal) (cspec : Mongo.CursorSpec)
    (hf : Mongo.resolveFindFilter pparams = .ok f)
    (hch : Mongo.applyChain chain (Mongo.initCursor f) = .ok (some cspec))
    (hox : ox.findDocs coll cspec = .ok []) :
    Mongo.mongoFindOp ox coll pparams chain =
      (.ok (some (.val (.list []))), [.find coll cspec]) := by
  unfold Mongo.mongoFindOp
  rw [hf]
  dsimp only
  rw [hch]
  dsimp only
  rw [hox]
  simp

theorem c7_mongo_case (ox : Mongo.MongoOracle) (raw coll pparams : String)
    (chain : List (String × String)) (f : PyVal) (cspec : Mongo.CursorSpec)
    (hscan : Mongo.contains_unsafe_operations (pyLower (pyStrip raw)) = false)
    (hparse : Mongo.parse_shell_command (pyStrip raw) = some (coll, "find", pparams, chain))
    (hcoll : coll ≠ "getCollectionNames()") (hc0 : coll ≠ "")
    (hf : Mongo.resolveFindFilter pparams = .ok f)
    (hch : Mongo.applyChain chain (Mongo.initCursor f) = .ok (some cspec))
    (hox : ox.findDocs coll cspec = .ok []) :
    Mongo.execute_query true true ox (.str raw) = (.val (.list []), [.find coll cspec]) := by
  have hdisp := mongoExecuteString_dispatch ox raw coll "find" pparams chain hparse hscan
  have hcond : ¬ (coll = "" ∨ ("find" : String) = "") := not_or.mpr ⟨hc0, by decide⟩
  have hbr : Mongo.mongoShellBranch ox coll "find" pparams chain =
      (.ok (.val (.list [])), [.find coll cspec]) := by
    unfold Mongo.mongoShellBranch
    rw [if_neg hcoll, if_neg hcond, mongoShellOp_find,
      mongoFindOp_empty ox coll pparams chain f cspec hf hch hox]
  exact execute_query_str_ok _ _ _ _ (hdisp.trans hbr)

theorem c7_pg_case (sess : Postgres.PgSession) (ox : Postgres.PgOracle) (q : String)
    (params : List String) (t : Option Nat)
    (hsel : pyStartsWith (pyUpper (pyStrip q)) "SELECT" = true)
    (hscan : Postgres.contains_unsafe_operations (pyUpper (pyStrip q)) = false)
    (hrun : ∀ pp n, ox.run q pp n = .rows []) :
    (Postgres.execute_query true sess ox q params t).1 = .rows [] := by
  have hrd : Postgres.is_read_only_query (pyUpper (pyStrip q)) = true := by
    unfold Postgres.is_read_only_query
    rw [hsel]
    simp
  unfold Postgres.execute_query Postgres.executeBody
  dsimp only
  rw [hrd, hscan]
  simp only [Bool.not_true, Bool.false_or, Bool.false_eq_true, if_false]
  cases t with
  | none =>
    dsimp only
    rw [hrun]
  | some tv =>
    dsimp only
    by_cases htv : tv ≠ 0
    · rw [if_pos htv]
      dsimp only
      rw [hrun]
    · rw [if_neg htv]
      dsimp only
      rw [hrun]

theorem mongoExecuteDict_blocked (ox : Mongo.MongoOracle) (fs : List (String × PyVal))
    (hscan : Mongo.contains_unsafe_operations (Mongo.pyJsonDumps (.dict fs)) = true) :
    Mongo.mongoExecuteDict ox fs =
      (.ok (.errDict "Operation blocked - only read operations are permitted"), []) := by
  unfold Mongo.mongoExecuteDict
  rw [hscan]
  simp

theorem pg_policy_cond (q : String)
    (hpol : Postgres.queryAllowed (pyUpper (pyStrip q)) = false) :
    (!(Postgres.is_read_only_query (pyUpper (pyStrip q))) ||
      Postgres.contains_unsafe_operations (pyUpper (pyStrip q))) = true := by
  unfold Postgres.queryAllowed at hpol
  cases h1 : Postgres.is_read_only_query (pyUpper (pyStrip q)) <;>
    cases h2 : Postgres.contains_unsafe_operations (pyUpper (pyStrip q)) <;>
    simp_all

theorem pg_blocked (sess : Postgres.PgSession) (ox : Postgres.PgOracle) (q : String)
    (params : List String) (t : Option Nat)
    (hpol : Postgres.queryAllowed (pyUpper (pyStrip q)) = false) :
    Postgres.execute_query true sess ox q params t =
      (.errDict "Operation blocked -  Non-read operation detected in query", [], sess) := by
  unfold Postgres.execute_query Postgres.executeBody
  dsimp only
  rw [pg_policy_cond q hpol]
  simp

theorem mysql_policy_cond (q : String)
    (hpol : MySQLDB.queryAllowed (pyUpper (pyStrip q)) = false) :
    (!(MySQLDB.is_read_only_query (pyUpper (pyStrip q))) ||
      MySQLDB.contains_unsafe_operations (pyUpper (pyStrip q))) = true := by
  unfold MySQLDB.queryAllowed at hpol
  cases h1 : MySQLDB.is_read_only_query (pyUpper (pyStrip q)) <;>
    cases h2 : MySQLDB.contains_unsafe_operations (pyUpper (pyStrip q)) <;>
    simp_all

theorem mysql_blocked (sess : MySQLDB.MySession) (ox : MySQLDB.MySQLOracle) (q : String)
    (params : List String) (t : Option Nat)
    (hpol : MySQLDB.queryAllowed (pyUpper (pyStrip q)) = false) :
    MySQLDB.execute_query true sess ox q params t =
      (.errDict "Operation blocked - Non-read operation detected in query", [], sess) := by
  unfold MySQLDB.execute_query MySQLDB.executeBody
  dsimp only
  rw [mysql_policy_cond q hpol]
  simp

theorem pg_allowed_cond (q : String)
    (hpol : Postgres.queryAllowed (pyUpper (pyStrip q)) = true) :
    (!(Postgres.is_read_only_query (pyUpper (pyStrip q))) ||
      Postgres.contains_unsafe_operations (pyUpper (pyStrip q))) = false := by
  unfold Postgres.queryAllowed at hpol
  cases h1 : Postgres.is_read_only_query (pyUpper (pyStrip q)) <;>
    cases h2 : Postgres.contains_unsafe_operations (pyUpper (pyStrip q)) <;>
    simp_all

theorem pg_session_after_override (sess : Postgres.PgSession) (ox : Postgres.PgOracle)
    (q : String) (params : List String) (t : Nat) (ht : t ≠ 0)
    (hpol : Postgres.queryAllowed (pyUpper (pyStrip q)) = true) :
    (Postgres.execute_query true sess ox q params (some t)).2.2 =
      { statementTimeout := t } := by
  unfold Postgres.execute_query Postgres.executeBody
  dsimp only
  rw [pg_allowed_cond q hpol]
  simp only [Bool.false_eq_true, if_false]
  rw [if_pos ht]
  dsimp only
  cases ox.run q params t <;> rfl

theorem pg_exec_observed (sess : Postgres.PgSession) (ox : Postgres.PgOracle)
    (q : String) (params : List String)
    (hpol : Postgres.queryAllowed (pyUpper (pyStrip q)) = true) :
    Postgres.execTimeouts (Postgres.execute_query true sess ox q params Option.none).2.1 =
      [sess.statementTimeout] := by
  unfold Postgres.execute_query Postgres.executeBody
  dsimp only
  rw [pg_allowed_cond q hpol]
  simp only [Bool.false_eq_true, if_false]
  cases ox.run q params sess.statementTimeout <;> rfl

/-- Claim C6: parsing the chained shell text db.c.find over a nested
filter followed by sort and limit yields exactly three operation and
raw-argument pairs, in the literal order find, sort, limit, with the
nested object text intact as the primary argument. -/
theorem c6_chain_parse_exact :
    Mongo.parseOpChain "find(\x7ba:\x7b$gt:1\x7d\x7d).sort(\x7bb:-1\x7d).limit(5)".toList =
      [("find", "\x7ba:\x7b$gt:1\x7d\x7d"), ("sort", "\x7bb:-1\x7d"), ("limit", "5")] ∧
    Mongo.parse_shell_command "db.c.find(\x7ba:\x7b$gt:1\x7d\x7d).sort(\x7bb:-1\x7d).limit(5)" =
      some ("c", "find", "\x7ba:\x7b$gt:1\x7d\x7d",
        [("sort", "\x7bb:-1\x7d"), ("limit", "5")]) :=
  ⟨rfl, rfl⟩

/-- Claim C3 (code bug): for the argument text hello all three coercion
parses fail and the text does not mention ObjectId, yet safe_eval_params
returns Python None instead of raising, and the find command executes
against the driver with a None filter. -/
theorem c3_safe_eval_falls_through_none :
    jsonLoads "hello" = Option.none ∧
    jsonLoads (quoteBareKeys "hello") = Option.none ∧
    substrContains "hello" "ObjectId" = false ∧
    Mongo.safe_eval_params "hello" = .ok PyVal.none ∧
    Mongo.execute_query true true Mongo.mongoOracleEmpty (.str "db.users.find(hello)") =
      (.val (.list []), [.find "users" { filter := PyVal.none }]) :=
  ⟨rfl, rfl, rfl, rfl, rfl⟩

/-- Claim C8: with no active connection every backend's execute_query
returns Python None, distinct from the error mapping, and records no
driver call. -/
theorem c8_no_connection_returns_none :
    (∀ (sess : Postgres.PgSession) (ox : Postgres.PgOracle) (q : String)
        (params : List String) (t : Option Nat),
      Postgres.execute_query false sess ox q params t = (.pynone, [], sess)) ∧
    (∀ (sess : MySQLDB.MySession) (ox : MySQLDB.MySQLOracle) (q : String)
        (params : List String) (t : Option Nat),
      MySQLDB.execute_query false sess ox q params t = (.pynone, [], sess)) ∧
    (∀ (hasDb : Bool) (ox : Mongo.MongoOracle) (cmd : Mongo.MongoCommand),
      Mongo.execute_query false hasDb ox cmd = (.pynone, [])) ∧
    (∀ (hasClient : Bool) (ox : Mongo.MongoOracle) (cmd : Mongo.MongoCommand),
      Mongo.execute_query hasClient false ox cmd = (.pynone, [])) ∧
    (∀ m, (Mongo.MongoRes.pynone : Mongo.MongoRes) ≠ .errDict m) ∧
    (∀ m, (Postgres.PgRes.pynone : Postgres.PgRes) ≠ .errDict m) ∧
    (∀ m, (MySQLDB.MyRes.pynone : MySQLDB.MyRes) ≠ .errDict m) := by
  refine ⟨fun _ _ _ _ _ => rfl, fun _ _ _ _ _ => rfl, fun _ _ _ => rfl, ?_, ?_, ?_, ?_⟩
  · intro hasClient ox cmd
    cases hasClient <;> rfl
  · intro m h
    exact Mongo.MongoRes.noConfusion h
  · intro m h
    exact Postgres.PgRes.noConfusion h
  · intro m h
    exact MySQLDB.MyRes.noConfusion h

/-- Claim C9 counterexample: the safe literal db.version() is entirely
lower case, so after lowering it does match the safe-literal branch and
returns the server version from buildInfo rather than an
invalid-shell-command error. -/
theorem c9_version_literal_executes :
    pyLower "db.version()" = "db.version()" ∧
    Mongo.SAFE_STRING_COMMANDS.contains "db.version()" = true ∧
    Mongo.execute_query true true Mongo.mongoOracleVersion (.str "db.version()") =
      (.val (.str "7.0.0"), [.command (.str "buildInfo") Option.none]) ∧
    (∀ m, (Mongo.MongoRes.val (.str "7.0.0") : Mongo.MongoRes) ≠ .errDict m) := by
  refine ⟨rfl, rfl, rfl, ?_⟩
  intro m h
  exact Mongo.MongoRes.noConfusion h

/-- Claim C9 as amended: the safe set holds the mixed-case entry
db.getProfilingStatus(), which can never equal the lowered command, so
that exact command falls through to the shell parser, which needs two
dots, and yields the invalid-shell-command error; db.version() however is
all lower case and executes the buildInfo command. -/
theorem c9_mixed_case_literal_unreachable :
    Mongo.SAFE_STRING_COMMANDS.contains "db.getProfilingStatus()" = true ∧
    Mongo.SAFE_STRING_COMMANDS.contains (pyLower "db.getProfilingStatus()") = false ∧
    (∀ ox, Mongo.execute_query true true ox (.str "db.getProfilingStatus()") =
      (.errDict "Invalid MongoDB shell command format", [])) ∧
    pyLower "db.version()" = "db.version()" ∧
    Mongo.SAFE_STRING_COMMANDS.contains (pyLower "db.version()") = true ∧
    Mongo.execute_query true true Mongo.mongoOracleVersion (.str "db.version()") =
      (.val (.str "7.0.0"), [.command (.str "buildInfo") Option.none]) :=
  ⟨rfl, rfl, fun _ => rfl, rfl, rfl, rfl⟩

/-- Claim C1 counterexample: the Postgres dataframe variant sends the
command DROP TABLE USERS to the driver although the policy evaluates it
as not allowed; no policy check runs on that path. -/
theorem c1_dataframe_bypasses_policy :
    Postgres.queryAllowed (pyUpper (pyStrip "DROP TABLE USERS")) = false ∧
    Postgres.execute_query_to_dataframe true Postgres.defaultPgSession
        Postgres.pgOracleEmptyRows "DROP TABLE USERS" Option.none =
      (some [], [Postgres.PgCall.exec "DROP TABLE USERS" [] 300000],
        Postgres.defaultPgSession) :=
  ⟨rfl, rfl⟩

/-- Claim C1 as amended: in execute_query on all three backends a failed
policy evaluation yields the blocked error with no driver call, and the
Mongo dataframe variant delegates to execute_query; the SQL dataframe
variants run without any policy evaluation (see the counterexample). -/
theorem c1_policy_gates_execute_query :
    (∀ (sess : Postgres.PgSession) (ox : Postgres.PgOracle) (q : String)
        (params : List String) (t : Option Nat),
      Postgres.queryAllowed (pyUpper (pyStrip q)) = false →
      Postgres.execute_query true sess ox q params t =
        (.errDict "Operation blocked -  Non-read operation detected in query", [], sess)) ∧
    (∀ (sess : MySQLDB.MySession) (ox : MySQLDB.MySQLOracle) (q : String)
        (params : List String) (t : Option Nat),
      MySQLDB.queryAllowed (pyUpper (pyStrip q)) = false →
      MySQLDB.execute_query true sess ox q params t =
        (.errDict "Operation blocked - Non-read operation detected in query", [], sess)) ∧
    (∀ (ox : Mongo.MongoOracle) (s : String),
      Mongo.contains_unsafe_operations (pyLower (pyStrip s)) = true →
      Mongo.execute_query true true ox (.str s) =
        (.errDict "Operation blocked - only read operations are permitted", [])) ∧
    (∀ (ox : Mongo.MongoOracle) (fs : List (String × PyVal)),
      Mongo.contains_unsafe_operations (Mongo.pyJsonDumps (.dict fs)) = true →
      Mongo.execute_query true true ox (.dict fs) =
        (.errDict "Operation blocked - only read operations are permitted", [])) ∧
    (∀ (hasClient hasDb : Bool) (ox : Mongo.MongoOracle) (coll : String)
        (query : List (String × PyVal)) (proj sortArg : Option PyVal)
        (lim tms : Option Nat),
      Mongo.execute_query_to_dataframe hasClient hasDb ox coll query proj sortArg lim tms =
        Mongo.execute_query hasClient hasDb ox (.dict query)) := by
  refine ⟨?_, ?_, ?_, ?_, fun _ _ _ _ _ _ _ _ _ => rfl⟩
  · intro sess ox q params t hpol
    exact pg_blocked sess ox q params t hpol
  · intro sess ox q params t hpol
    exact mysql_blocked sess ox q params t hpol
  · intro ox s hscan
    exact execute_query_str_ok _ _ _ _ (mongoExecuteString_blocked ox s hscan)
  · intro ox fs hscan
    exact execute_query_dict_ok _ _ _ _ (mongoExecuteDict_blocked ox fs hscan)

/-- Witness for the amended claim C1 at concrete blocked commands. -/
theorem c1_policy_gates_execute_query_witness :
    Postgres.execute_query true Postgres.defaultPgSession Postgres.pgOracleEmptyRows
        "DROP TABLE USERS" [] Option.none =
      (.errDict "Operation blocked -  Non-read operation detected in query", [],
        Postgres.defaultPgSession) ∧
    Mongo.execute_query true true Mongo.mongoOracleEmpty (.str "db.users.drop()") =
      (.errDict "Operation blocked - only read operations are permitted", []) :=
  ⟨c1_policy_gates_execute_query.1 _ _ _ _ _ rfl,
   c1_policy_gates_execute_query.2.2.1 _ _ rfl⟩

/-- Claim C2 counterexample: a WITH-prefixed statement whose only
occurrence of the deny keyword UPDATE lies inside the identifier
UPDATE_COUNT passes the word-boundary deny scan, yet execute_query
rejects it, because the CTE inspection of is_read_only_query uses plain
substring containment. -/
theorem c2_with_cte_substring_reject :
    pyStartsWith (pyUpper (pyStrip "WITH T AS (SELECT UPDATE_COUNT FROM X) SELECT 1"))
      "WITH " = true ∧
    Postgres.contains_unsafe_operations
      (pyUpper (pyStrip "WITH T AS (SELECT UPDATE_COUNT FROM X) SELECT 1")) = false ∧
    Postgres.execute_query true Postgres.defaultPgSession Postgres.pgOracleEmptyRows
        "WITH T AS (SELECT UPDATE_COUNT FROM X) SELECT 1" [] Option.none =
      (.errDict "Operation blocked -  Non-read operation detected in query", [],
        Postgres.defaultPgSession) :=
  ⟨rfl, rfl, rfl⟩

/-- Claim C2 as amended: the deny-list scans are exactly word-boundary
pattern occurrence (characterized declaratively for both SQL keyword and
function patterns and for the Mongo patterns over the operator-stripped
lowered text), so identifier-embedded keywords such as update_count or
createdAt do not trigger them while a bare update token does; but a
WITH-prefixed SQL statement is additionally screened by substring
containment in the allow-list CTE inspection and is rejected even when
the keyword only occurs inside an identifier. -/
theorem c2_word_boundary_scan :
    (∀ s : String, Postgres.contains_unsafe_operations s = true ↔
      (∃ k ∈ Postgres.UNSAFE_KEYWORDS, OccurSpec k.toList true wordEndCk s.toList) ∨
      (∃ f ∈ Postgres.UNSAFE_FUNCTIONS, OccurSpec f.toList true parenAfterWsCk s.toList)) ∧
    (∀ s : String, Mongo.contains_unsafe_operations s = true ↔
      ∃ p ∈ Mongo.UNSAFE_PATTERNS,
        OccurSpec p.lit.toList p.wordStart wordEndCk (Mongo.mongoScrub s).toList) ∧
    Mongo.execute_query true true Mongo.mongoOracleEmpty
        (.str "db.users.find(\x7bupdate_count: 1\x7d)") =
      (.val (.list []),
        [.find "users" { filter := .dict [("update_count", .int 1)] }]) ∧
    Mongo.execute_query true true Mongo.mongoOracleEmpty
        (.str "db.users.update(\x7bstatus: 1\x7d)") =
      (.errDict "Operation blocked - only read operations are permitted", []) ∧
    Postgres.execute_query true Postgres.defaultPgSession Postgres.pgOracleEmptyRows
        "select update_count, createdAt from t" [] Option.none =
      (.rows [], [.exec "select update_count, createdAt from t" [] 300000],
        Postgres.defaultPgSession) ∧
    Postgres.execute_query true Postgres.defaultPgSession Postgres.pgOracleEmptyRows
        "select update from t" [] Option.none =
      (.errDict "Operation blocked -  Non-read operation detected in query", [],
        Postgres.defaultPgSession) ∧
    Postgres.contains_unsafe_operations
      (pyUpper (pyStrip "WITH T AS (SELECT UPDATE_COUNT FROM X) SELECT 1")) = false ∧
    Postgres.execute_query true Postgres.defaultPgSession Postgres.pgOracleEmptyRows
        "WITH T AS (SELECT UPDATE_COUNT FROM X) SELECT 1" [] Option.none =
      (.errDict "Operation blocked -  Non-read operation detected in query", [],
        Postgres.defaultPgSession) :=
  ⟨pg_scan_iff, mongo_scan_iff, rfl, rfl, rfl, rfl, rfl, rfl⟩

/-- Claim C4 counterexample: after a query with a per-call timeout of
1000 milliseconds the session keeps statement_timeout 1000, so the next
command on the same connection executes under 1000, not the
connection-level default of 300000. -/
theorem c4_timeout_override_leaks :
    Postgres.execute_query true Postgres.defaultPgSession Postgres.pgOracleEmptyRows
        "SELECT 1" [] (some 1000) =
      (.rows [], [.setTimeout 1000, .exec "SELECT 1" [] 1000],
        { statementTimeout := 1000 }) ∧
    Postgres.execute_query true { statementTimeout := 1000 } Postgres.pgOracleEmptyRows
        "SELECT 2" [] Option.none =
      (.rows [], [.exec "SELECT 2" [] 1000], { statementTimeout := 1000 }) ∧
    (1000 : Nat) ≠ 300000 :=
  ⟨rfl, rfl, by decide⟩

/-- Claim C4 as amended: a per-call timeout override is applied by a
session-level SET that is never restored, so after any allowed first
command with override t the session keeps statement_timeout t and a
subsequent allowed command on the same connection executes under t
rather than the connection-level default. -/
theorem c4_timeout_override_persists (sess : Postgres.PgSession)
    (ox1 ox2 : Postgres.PgOracle) (q1 q2 : String) (p1 p2 : List String) (t : Nat)
    (ht : t ≠ 0)
    (h1 : Postgres.queryAllowed (pyUpper (pyStrip q1)) = true)
    (h2 : Postgres.queryAllowed (pyUpper (pyStrip q2)) = true) :
    (Postgres.execute_query true sess ox1 q1 p1 (some t)).2.2 =
      { statementTimeout := t } ∧
    Postgres.execTimeouts
      (Postgres.execute_query true
        ((Postgres.execute_query true sess ox1 q1 p1 (some t)).2.2) ox2 q2 p2
        Option.none).2.1 = [t] := by
  have hs := pg_session_after_override sess ox1 q1 p1 t ht h1
  refine ⟨hs, ?_⟩
  rw [hs]
  simpa using pg_exec_observed { statementTimeout := t } ox2 q2 p2 h2

/-- Witness for the amended claim C4 at two concrete SELECT commands and
a 1000 millisecond override. -/
theorem c4_timeout_override_persists_witness :
    (Postgres.execute_query true Postgres.defaultPgSession Postgres.pgOracleEmptyRows
        "SELECT 1" [] (some 1000)).2.2 = { statementTimeout := 1000 } ∧
    Postgres.execTimeouts
      (Postgres.execute_query true
        ((Postgres.execute_query true Postgres.defaultPgSession Postgres.pgOracleEmptyRows
            "SELECT 1" [] (some 1000)).2.2) Postgres.pgOracleEmptyRows "SELECT 2" []
        Option.none).2.1 = [1000] :=
  c4_timeout_override_persists Postgres.defaultPgSession Postgres.pgOracleEmptyRows
    Postgres.pgOracleEmptyRows "SELECT 1" "SELECT 2" [] [] 1000 (by decide) rfl rfl

/-- Claim C5: an aggregation command, in shell-text or dict form, whose
pipeline contains a dollar-out or dollar-merge stage is answered with an
error mapping and no driver call is made, so no pipeline stage
executes. -/
theorem c5_unsafe_stage_rejected (ox : Mongo.MongoOracle) (cmd : Mongo.MongoCommand)
    (h : Mongo.AggregationWithUnsafeStage cmd) :
    ∃ msg, Mongo.execute_query true true ox cmd = (.errDict msg, []) := by
  cases cmd with
  | str s =>
    obtain ⟨coll, pparams, chain, stages, hparse, hcoll, hsep, hst⟩ := h
    exact c5_shell_case ox s coll pparams chain stages hparse hcoll hsep hst
  | dict fs =>
    obtain ⟨hfind, hfindone, hcount, hcountd, hdist, hagg, stages, hpipe, hst⟩ := h
    exact c5_dict_case ox fs stages hfind hfindone hcount hcountd hdist hagg hpipe hst
  | other => exact h.elim

/-- Witness for claim C5 at a concrete shell aggregation whose pipeline
holds a dollar-out stage. -/
theorem c5_unsafe_stage_rejected_witness :
    ∃ msg, Mongo.execute_query true true Mongo.mongoOracleEmpty
      (.str "db.orders.aggregate([\x7b\"$out\": \"archive\"\x7d])") = (.errDict msg, []) :=
  c5_unsafe_stage_rejected Mongo.mongoOracleEmpty
    (.str "db.orders.aggregate([\x7b\"$out\": \"archive\"\x7d])")
    ⟨"orders", "[\x7b\"$out\": \"archive\"\x7d]", [],
      [PyVal.dict [("$out", PyVal.str "archive")]], rfl, by decide, rfl,
      ⟨PyVal.dict [("$out", PyVal.str "archive")], by simp, by decide⟩⟩

/-- Claim C7: an allowed SELECT or shell find command that matches no
rows or documents returns the empty sequence as a success value, distinct
from the error mapping and from Python None. -/
theorem c7_empty_result_is_success :
    (∀ (sess : Postgres.PgSession) (ox : Postgres.PgOracle) (q : String)
        (params : List String) (t : Option Nat),
      pyStartsWith (pyUpper (pyStrip q)) "SELECT" = true →
      Postgres.contains_unsafe_operations (pyUpper (pyStrip q)) = false →
      (∀ pp n, ox.run q pp n = .rows []) →
      (Postgres.execute_query true sess ox q params t).1 = .rows [] ∧
      (∀ m, (Postgres.PgRes.rows [] : Postgres.PgRes) ≠ .errDict m) ∧
      (Postgres.PgRes.rows [] : Postgres.PgRes) ≠ .pynone) ∧
    (∀ (ox : Mongo.MongoOracle) (raw coll pparams : String)
        (chain : List (String × String)) (f : PyVal) (cspec : Mongo.CursorSpec),
      Mongo.contains_unsafe_operations (pyLower (pyStrip raw)) = false →
      Mongo.parse_shell_command (pyStrip raw) = some (coll, "find", pparams, chain) →
      coll ≠ "getCollectionNames()" → coll ≠ "" →
      Mongo.resolveFindFilter pparams = .ok f →
      Mongo.applyChain chain (Mongo.initCursor f) = .ok (some cspec) →
      ox.findDocs coll cspec = .ok [] →
      Mongo.execute_query true true ox (.str raw) =
        (.val (.list []), [.find coll cspec]) ∧
      (∀ m, (Mongo.MongoRes.val (.list []) : Mongo.MongoRes) ≠ .errDict m) ∧
      (Mongo.MongoRes.val (.list []) : Mongo.MongoRes) ≠ .pynone) := by
  constructor
  · intro sess ox q params t hsel hscan hrun
    refine ⟨c7_pg_case sess ox q params t hsel hscan hrun, ?_, ?_⟩
    · intro m h
      exact Postgres.PgRes.noConfusion h
    · intro h
      exact Postgres.PgRes.noConfusion h
  · intro ox raw coll pparams chain f cspec hscan hparse hcoll hc0 hf hch hox
    refine ⟨c7_mongo_case ox raw coll pparams chain f cspec hscan hparse hcoll hc0 hf hch hox,
      ?_, ?_⟩
    · intro m h
      exact Mongo.MongoRes.noConfusion h
    · intro h
      exact Mongo.MongoRes.noConfusion h

/-- Witness for claim C7 at a concrete empty SELECT and a concrete empty
shell find. -/
theorem c7_empty_result_is_success_witness :
    ((Postgres.execute_query true Postgres.defaultPgSession Postgres.pgOracleEmptyRows
        "SELECT * FROM T" [] Option.none).1 = .rows [] ∧
      (∀ m, (Postgres.PgRes.rows [] : Postgres.PgRes) ≠ .errDict m) ∧
      (Postgres.PgRes.rows [] : Postgres.PgRes) ≠ .pynone) ∧
    (Mongo.execute_query true true Mongo.mongoOracleEmpty (.str "db.users.find()") =
        (.val (.list []), [.find "users" { filter := .dict [] }]) ∧
      (∀ m, (Mongo.MongoRes.val (.list []) : Mongo.MongoRes) ≠ .errDict m) ∧
      (Mongo.MongoRes.val (.list []) : Mongo.MongoRes) ≠ .pynone) :=
  ⟨c7_empty_result_is_success.1 Postgres.defaultPgSession Postgres.pgOracleEmptyRows
      "SELECT * FROM T" [] Option.none rfl rfl (fun _ _ => rfl),
   c7_empty_result_is_success.2 Mongo.mongoOracleEmpty "db.users.find()" "users" "" []
      (.dict []) { filter := .dict [] } rfl rfl (by decide) (by decide) rfl rfl rfl⟩

/-- Claim C10: each backend's execute_query is total at its public
boundary: with no connection it returns Python None, and otherwise the
public result is either the value the try body produced or the error
mapping built by the outer handler from the body's fault; a fault never
escapes unhandled. -/
theorem c10_execute_query_total :
    (∀ (sess : Postgres.PgSession) (ox : Postgres.PgOracle) (q : String)
        (params : List String) (t : Option Nat),
      Postgres.execute_query false sess ox q params t = (.pynone, [], sess) ∧
      ((∃ r tr s, Postgres.executeBody sess ox q params t = (.ok r, tr, s) ∧
          Postgres.execute_query true sess ox q params t = (r, tr, s)) ∨
       (∃ m tr s, Postgres.executeBody sess ox q params t = (.error m, tr, s) ∧
          Postgres.execute_query true sess ox q params t =
            (.errDict ("Query execution failed: " ++ m), tr ++ [.rollback], s)))) ∧
    (∀ (sess : MySQLDB.MySession) (ox : MySQLDB.MySQLOracle) (q : String)
        (params : List String) (t : Option Nat),
      MySQLDB.execute_query false sess ox q params t = (.pynone, [], sess) ∧
      ((∃ r tr s, MySQLDB.executeBody sess ox q params t = (.ok r, tr, s) ∧
          MySQLDB.execute_query true sess ox q params t = (r, tr, s)) ∨
       (∃ m tr s, MySQLDB.executeBody sess ox q params t = (.error m, tr, s) ∧
          MySQLDB.execute_query true sess ox q params t =
            (.errDict ("Query execution failed: " ++ m), tr ++ [.rollback], s)))) ∧
    (∀ (ox : Mongo.MongoOracle) (cmd : Mongo.MongoCommand),
      Mongo.execute_query false true ox cmd = (.pynone, []) ∧
      Mongo.execute_query true false ox cmd = (.pynone, []) ∧
      ((∃ r tr, Mongo.mongoExecuteBody ox cmd = (.ok r, tr) ∧
          Mongo.execute_query true true ox cmd = (r, tr)) ∨
       (∃ e tr, Mongo.mongoExecuteBody ox cmd = (.error e, tr) ∧
          Mongo.execute_query true true ox cmd =
            (.errDict ("Query execution error: " ++ pyExcMsg e), tr)))) := by
  refine ⟨?_, ?_, ?_⟩
  · intro sess ox q params t
    refine ⟨rfl, ?_⟩
    rcases hb : Postgres.executeBody sess ox q params t with ⟨er, tr, s⟩
    cases er with
    | ok r =>
      exact Or.inl ⟨r, tr, s, rfl, by simp [Postgres.execute_query, hb]⟩
    | error m =>
      exact Or.inr ⟨m, tr, s, rfl, by simp [Postgres.execute_query, hb]⟩
  · intro sess ox q params t
    refine ⟨rfl, ?_⟩
    rcases hb : MySQLDB.executeBody sess ox q params t with ⟨er, tr, s⟩
    cases er with
    | ok r =>
      exact Or.inl ⟨r, tr, s, rfl, by simp [MySQLDB.execute_query, hb]⟩
    | error m =>
      exact Or.inr ⟨m, tr, s, rfl, by simp [MySQLDB.execute_query, hb]⟩
  · intro ox cmd
    refine ⟨rfl, by cases cmd <;> rfl, ?_⟩
    rcases hb : Mongo.mongoExecuteBody ox cmd with ⟨er, tr⟩
    cases er with
    | ok r =>
      exact Or.inl ⟨r, tr, rfl, by simp [Mongo.execute_query, hb]⟩
    | error e =>
      exact Or.inr ⟨e, tr, rfl, by simp [Mongo.execute_query, hb]⟩
